import Mathlib

/-!
# icbc-exam: authenticate → query → evaluate → notify

A shallow embedding of `main.go`.  The remote portal and the alert sink are
external: each call's outcome is an input of the model.  The Go library
functions the program calls (`time.Parse`, `Time.After`, `strconv.Atoi`) are
modelled after the Go standard library, specialised to the constant arguments
the program passes.
-/

namespace ICBC

/-! ## Errors and aborts -/

/-- Go error values and run-time panics that occur in the program. -/
inductive Err where
  /-- error returned by the HTTP client (connection, timeout) -/
  | net (msg : String)
  /-- error returned by `json.Decoder.Decode` -/
  | json (msg : String)
  /-- value of `fmt.Errorf(msg)` -/
  | errorf (msg : String)
  /-- The `*time.ParseError` for the given input -/
  | parseTime (value : String)
  /-- The `*strconv.NumError` for the given input -/
  | numError (value : String)
  /-- runtime error: index out of range -/
  | indexOutOfRange
  /-- runtime error: interface conversion (failed type assertion) -/
  | typeAssertion
  /-- runtime error: invalid memory address or nil pointer dereference -/
  | nilDereference
  /-- error returned while reading a response body -/
  | read (msg : String)
  deriving DecidableEq

/-! ## Go `time`: `Parse("2006-01-02", value)`, `Date`, `After` -/

/-- Conversion to `int64`: two's-complement wrap-around. -/
def wrapInt64 (x : Int) : Int := (x + 2 ^ 63) % 2 ^ 64 - 2 ^ 63

/-- Go's `time.isDigit`: whether `s[i]` is in range and a decimal digit. -/
def isDigit (s : List Char) (i : Nat) : Bool :=
  match s.drop i with
  | [] => false
  | c :: _ => decide (48 ≤ c.toNat) && decide (c.toNat ≤ 57)

/-- The loop of `time.leadingInt`, with accumulator `x` (a `uint64`). -/
def leadingIntLoop : List Char → Nat → Option (Nat × List Char)
  | [], x => some (x, [])
  | c :: s, x =>
    if c.toNat < 48 ∨ c.toNat > 57 then some (x, c :: s)
    else if x > 2 ^ 63 / 10 then none
    else
      let x1 := (x * 10 + c.toNat - 48) % 2 ^ 64
      if x1 > 2 ^ 63 then none else leadingIntLoop s x1

/-- Go's `time.leadingInt`: the leading decimal digits of `s` and the remainder. -/
def leadingInt (s : List Char) : Option (Nat × List Char) := leadingIntLoop s 0

/-- Go's `time.atoi`: a signed decimal number filling the whole of `s`. -/
def atoi (s : List Char) : Option Int :=
  let neg : Bool := match s with
    | c :: _ => c = '-'
    | [] => false
  let s1 : List Char := match s with
    | c :: t => if c = '-' ∨ c = '+' then t else c :: t
    | [] => []
  match leadingInt s1 with
  | none => none
  | some (q, rem) =>
    if 0 < rem.length then none
    else
      let x := wrapInt64 (q : Int)
      some (if neg then wrapInt64 (-x) else x)

/-- Go's `time.getnum`: `s[0:1]` or `s[0:2]` (`fixed` forces two digits) as a
number, and the remainder. -/
def getnum (s : List Char) (fixed : Bool) : Option (Nat × List Char) :=
  if !isDigit s 0 then none
  else if !isDigit s 1 then
    if fixed then none
    else
      match s with
      | c :: t => some (c.toNat - 48, t)
      | [] => none
  else
    match s with
    | c :: d :: t => some ((c.toNat - 48) * 10 + (d.toNat - 48), t)
    | _ => none

/-- Go's `time.skip` for a prefix without blanks (the layout's only prefix is
`-`): `value` must start with `pfx`, which is removed. -/
def skip : List Char → List Char → Option (List Char)
  | value, [] => some value
  | [], _ :: _ => none
  | v :: value, p :: pfx => if v ≠ p then none else skip value pfx

/-- Go's `time.isLeap`. -/
def isLeap (year : Int) : Bool :=
  decide (Int.tmod year 4 = 0) &&
    (decide (Int.tmod year 100 ≠ 0) || decide (Int.tmod year 400 = 0))

/-- Go's `time.daysBefore`: days before the end of month `m` in a non-leap year. -/
def daysBefore : List Nat :=
  [0, 31, 31 + 28, 31 + 28 + 31, 31 + 28 + 31 + 30, 31 + 28 + 31 + 30 + 31,
   31 + 28 + 31 + 30 + 31 + 30, 31 + 28 + 31 + 30 + 31 + 30 + 31,
   31 + 28 + 31 + 30 + 31 + 30 + 31 + 31,
   31 + 28 + 31 + 30 + 31 + 30 + 31 + 31 + 30,
   31 + 28 + 31 + 30 + 31 + 30 + 31 + 31 + 30 + 31,
   31 + 28 + 31 + 30 + 31 + 30 + 31 + 31 + 30 + 31 + 30,
   31 + 28 + 31 + 30 + 31 + 30 + 31 + 31 + 30 + 31 + 30 + 31]

/-- Go's `time.daysIn`: the number of days of month `m` of `year`. -/
def daysIn (m : Nat) (year : Int) : Nat :=
  if m = 2 ∧ isLeap year then 29
  else daysBefore.getD m 0 - daysBefore.getD (m - 1) 0

/-- Go's `time.absoluteZeroYear`. -/
def absoluteZeroYear : Int := -292277022399

/-- Go's `time.daysSinceEpoch`: days from the absolute epoch to the start of
`year`, in `uint64` arithmetic. -/
def daysSinceEpoch (year : Int) : Nat :=
  let y : Nat := ((year - absoluteZeroYear) % 2 ^ 64).toNat
  let n400 := y / 400
  let y1 := y - 400 * n400
  let d1 := 146097 * n400
  let n100 := y1 / 100
  let y2 := y1 - 100 * n100
  let d2 := d1 + 36524 * n100
  let n4 := y2 / 4
  let y3 := y2 - 4 * n4
  let d3 := d2 + 1461 * n4
  (d3 + 365 * y3) % 2 ^ 64

/-- Go's `time.norm`: carry `lo` into `hi` so that `0 ≤ lo < base`. -/
def norm (hi lo base : Int) : Int × Int :=
  let (hi1, lo1) :=
    if lo < 0 then
      let n := Int.tdiv (-lo - 1) base + 1
      (hi - n, lo + n * base)
    else (hi, lo)
  if lo1 ≥ base then
    let n := Int.tdiv lo1 base
    (hi1 + n, lo1 - n * base)
  else (hi1, lo1)

/-- A `time.Time` without monotonic clock reading: seconds since January 1,
year 1 (the `ext` field) and nanoseconds. -/
structure Time where
  sec : Int
  nsec : Nat
  deriving DecidableEq

/-- Go's `time.Date(year, month, day, 0, 0, 0, 0, time.UTC)`. -/
def Date (year month day : Int) : Time :=
  let (year1, m) := norm year (month - 1) 12
  let month1 := m + 1
  let d0 := daysSinceEpoch year1
  let d1 := d0 + daysBefore.getD (month1 - 1).toNat 0
  let d2 := if isLeap year1 ∧ month1 ≥ 3 then d1 + 1 else d1
  let d3 := ((d2 : Int) + (day - 1)) % 2 ^ 64
  let abs := (d3 * 86400) % 2 ^ 64
  let absoluteToInternal : Int := -9223371966579724800
  let internalToUnix : Int := -62135596800
  let unixToInternal : Int := 62135596800
  let unix := wrapInt64 (wrapInt64 abs + (absoluteToInternal + internalToUnix))
  { sec := wrapInt64 (unix + unixToInternal), nsec := 0 }

/-- Go's `Time.After`. -/
def Time.After (t u : Time) : Bool :=
  decide (t.sec > u.sec) || (decide (t.sec = u.sec) && decide (t.nsec > u.nsec))

/-- Go's `time.Parse("2006-01-02", value)`.  The layout is the chunk sequence
year (`2006`), `-`, two-digit month (`01`), `-`, two-digit day (`02`).  Go
strings are byte strings; every test below compares with an ASCII character,
so walking characters gives the same outcome. -/
def Parse (value : String) : Except Err Time :=
  let bad : Except Err Time := .error (.parseTime value)
  let v0 := value.data
  if v0.length < 4 || !isDigit v0 0 then bad
  else
    match atoi (v0.take 4) with
    | none => bad
    | some year =>
      match skip (v0.drop 4) ['-'] with
      | none => bad
      | some v1 =>
        match getnum v1 true with
        | none => bad
        | some (month, v2) =>
          if month ≤ 0 ∨ 12 < month then bad
          else
            match skip v2 ['-'] with
            | none => bad
            | some v3 =>
              match getnum v3 true with
              | none => bad
              | some (day, v4) =>
                if v4.length ≠ 0 then bad
                else if day < 1 ∨ day > daysIn month year then bad
                else .ok (Date year month day)

/-! ## Go `strconv.Atoi` -/

/-- The digit loop of `strconv.Atoi`: the value of a string of decimal
digits, `none` on any other character. -/
def digitsValue : List Char → Nat → Option Nat
  | [], n => some n
  | c :: s, n =>
    if c.toNat < 48 ∨ c.toNat > 57 then none
    else digitsValue s (n * 10 + (c.toNat - 48))

/-- Go's `strconv.Atoi(s)` with a 64-bit `int`: an optional sign and at least one
decimal digit; `none` stands for the `*NumError` (syntax or range). -/
def Atoi (s : String) : Option Int :=
  let neg : Bool := match s.data with
    | c :: _ => c = '-'
    | [] => false
  let digits : List Char := match s.data with
    | c :: t => if c = '-' ∨ c = '+' then t else c :: t
    | [] => []
  if digits.length < 1 then none
  else
    match digitsValue digits 0 with
    | none => none
    | some n =>
      if neg then (if n > 2 ^ 63 then none else some (-(n : Int)))
      else (if n ≥ 2 ^ 63 then none else some (n : Int))

/-! ## Decoded JSON and HTTP -/

/-- A Go `interface{}` holding a value decoded by `encoding/json`; a number
is a `float64`, kept as its bit pattern. -/
inductive Value where
  | null
  | bool (b : Bool)
  | number (bits : Nat)
  | string (s : String)
  | array (xs : List Value)
  | object (m : List (String × Value))

/-- A Go `map[string]interface{}`; the nil map is the empty list (the program
only reads its maps). -/
abbrev JMap := List (String × Value)

/-- Map indexing `m[k]`: the nil interface when the key is absent. -/
def JMap.index (m : JMap) (k : String) : Value := (m.lookup k).getD Value.null

/-- Type assertion `v.(map[string]interface{})`. -/
def Value.assertMap : Value → Except Err JMap
  | .object m => .ok m
  | _ => .error .typeAssertion

/-- Type assertion `v.(string)`. -/
def Value.assertString : Value → Except Err String
  | .string s => .ok s
  | _ => .error .typeAssertion

/-- An `http.Header`: canonical key to values. -/
abbrev HttpHeader := List (String × List String)

/-- Indexing `h[k]` of an `http.Header`: the nil slice when the key is absent. -/
def HttpHeader.index (h : HttpHeader) (k : String) : List String := (h.lookup k).getD []

/-- Outcome `(resp, err)` of an HTTP client call: an error without response,
or a response. -/
inductive DoResult (ρ : Type) where
  | error (e : Err)
  | response (resp : ρ)

/-- A login response: its header and what `Decode` into a
`map[string]interface{}` leaves and returns. -/
structure LoginResponse where
  Header : HttpHeader
  decodedBody : JMap
  decodeErr : Option Err

/-- An appointment-search response: its header and what `Decode` into a
`[]map[string]interface{}` leaves in the slice (nil is `[]`) and returns. -/
structure ExamResponse where
  Header : HttpHeader
  decodedBody : List JMap
  decodeErr : Option Err

/-- An alert-sink response: status code and the outcome of reading its body
(the bytes read and the read error, if any). -/
structure PostResponse where
  StatusCode : Nat
  body : String
  readErr : Option Err

/-! ## The program -/

def loginURL : String := "https://onlinebusiness.icbc.com/deas-api/v1/webLogin/webLogin"

def appointmentsURL : String :=
  "https://onlinebusiness.icbc.com/deas-api/v1/web/getAvailableAppointments"

structure Login where
  LastName : String
  LicenceNumber : String
  Keyword : String
  deriving DecidableEq

structure Exam where
  LocationID : Int
  /-- the field `Type` of the source -/
  ExamType : String
  Date : String
  IgnoreReserveTime : Bool
  DaysOfWeek : String
  Time : String
  LastName : String
  LicenseNumber : String
  deriving DecidableEq

structure Header where
  Name : String
  Value : String
  deriving DecidableEq

/-- An `*http.Request` as built by `preparePayload`: `body` is the value
that was marshalled. -/
structure Request (β : Type) where
  method : String
  url : String
  headers : List (String × String)
  body : β
  deriving DecidableEq

/-- Assignment `headers[name] = value` on a `map[string]string`. -/
def setHeader (headers : List (String × String)) (name value : String) :
    List (String × String) :=
  if headers.any (fun kv => kv.1 == name) then
    headers.map (fun kv => if kv.1 == name then (kv.1, value) else kv)
  else headers ++ [(name, value)]

/-- The function `preparePayload`: marshalling a `Login` or `Exam` and building a request
from a constant method and URL do not fail. -/
def preparePayload {β : Type} (input : β) (method url : String)
    (headers : List (String × String)) : Request β :=
  { method := method, url := url, headers := headers, body := input }

def Login.payload (l : Login) (h : List Header) : Request Login :=
  let headers : List (String × String) := [
    ("Sec-Ch-Ua", "\" Not;A Brand\";v=\"99\", \"Google Chrome\";v=\"91\", \"Chromium\";v=\"91\""),
    ("Pragma", "no-cache"),
    ("Sec-Ch-Ua-Mobile", "?0"),
    ("User-Agent", "Mozilla/5.0 (Macintosh; Intel Mac OS X 10_15_7) AppleWebKit/537.36 (KHTML, like Gecko) Chrome/91.0.4472.77 Safari/537.36"),
    ("Content-Type", "application/json"),
    ("Accept", "application/json, text/plain, */*"),
    ("Cache-Control", "no-cache, no-store"),
    ("Referer", "https://onlinebusiness.icbc.com/webdeas-ui/login;type=driver"),
    ("Expires", "0")]
  preparePayload l "PUT" loginURL
    (h.foldl (fun hs opt => setHeader hs opt.Name opt.Value) headers)

def Exam.payload (e : Exam) (h : List Header) : Request Exam :=
  let headers : List (String × String) := [
    ("Sec-Ch-Ua", "\" Not;A Brand\";v=\"99\", \"Google Chrome\";v=\"91\", \"Chromium\";v=\"91\""),
    ("Accept", "application/json, text/plain, */*"),
    ("Referer", "https://onlinebusiness.icbc.com/webdeas-ui/booking"),
    ("Sec-Ch-Ua-Mobile", "?0"),
    ("User-Agent", "Mozilla/5.0 (Macintosh; Intel Mac OS X 10_15_7) AppleWebKit/537.36 (KHTML, like Gecko) Chrome/91.0.4472.77 Safari/537.36"),
    ("Content-Type", "application/json")]
  preparePayload e "POST" appointmentsURL
    (h.foldl (fun hs opt => setHeader hs opt.Name opt.Value) headers)

/-- How a run stops early: a panic, or `log.Fatalf` with its format and error. -/
inductive Abort where
  | panic (e : Err)
  | fatal (format : String) (e : Err)
  deriving DecidableEq

/-- The method `Login.query`, given the outcome of `http.DefaultClient.Do(req)`: panics
on a client error, otherwise returns the decoded body, the response header
and the decode error. -/
def Login.query (r : DoResult LoginResponse) :
    Except Abort (JMap × HttpHeader × Option Err) :=
  match r with
  | .error err => .error (.panic err)
  | .response resp => .ok (resp.decodedBody, resp.Header, resp.decodeErr)

/-- The method `Exam.query`, given the outcome of `http.DefaultClient.Do(req)`. -/
def Exam.query (r : DoResult ExamResponse) :
    Except Abort (JMap × HttpHeader × Option Err) :=
  match r with
  | .error err => .error (.panic err)
  | .response resp =>
    match resp.decodeErr with
    | some err =>
      match resp.decodedBody with
      | [] => .error (.panic .indexOutOfRange)
      | b :: _ => .ok (b, resp.Header, some err)
    | none =>
      if resp.decodedBody.length = 0 then
        .ok ([], resp.Header,
          some (.errorf "no appointments found matching the search criteria."))
      else
        match resp.decodedBody with
        | [] => .error (.panic .indexOutOfRange)
        | b :: _ => .ok (b, resp.Header, none)

/-- A line written with `log.Println` or `log.Printf`: a text, or an error
value printed through its `Error` method. -/
inductive LogLine where
  | text (s : String)
  | error (e : Err)
  deriving DecidableEq

/-- The function `pushover`, given the outcome of `http.PostForm`: the lines it logs and
whether it returns (`ok`) or panics. -/
def pushover (_token _user _message : String) (r : DoResult PostResponse) :
    List LogLine × Except Abort Unit :=
  match r with
  | .error err =>
    -- `resp` is nil: `resp.StatusCode` dereferences it
    ([.error err], .error (.panic .nilDereference))
  | .response resp =>
    if resp.StatusCode ≠ 200 then
      match resp.readErr with
      | some err => ([.error err, .text resp.body], .ok ())
      | none => ([.text resp.body], .ok ())
    else ([], .ok ())

/-- The flag values read by `main` (the location list apart). -/
structure Config where
  lastName : String
  licenseNumber : String
  keyword : String
  examType : String
  startDate : String
  endDate : String
  token : String
  user : String

/-- One entry of `locationIDs`, with what the outside world answers during
its loop iteration: the outcome of the appointment request and, should
`pushover` be called, the outcome of the alert request. -/
structure Location where
  locationID : String
  exam : DoResult ExamResponse
  push : DoResult PostResponse

/-- What a run does that is visible outside: the lines logged, the
appointment requests issued, and the calls of `pushover` with their
arguments `(token, user, message)`. -/
structure Trace where
  log : List LogLine
  queries : List (Request Exam)
  alerts : List (String × String × String)

/-- One more log line. -/
def Trace.println (tr : Trace) (l : LogLine) : Trace :=
  { tr with log := tr.log ++ [l] }

/-- The date-window test of `main` on the `appointmentDt` object of a
returned slot: `ok true` falls through to the notification, `ok false` logs
and continues with the next location, `error` is a panic. -/
def windowCheck (endDate : String) (appointments : JMap) : Except Err Bool :=
  if endDate ≠ "" then
    match Parse endDate with
    | .error err => .error err
    | .ok ed =>
      match (appointments.index "date").assertString with
      | .error err => .error err
      | .ok date =>
        match Parse date with
        | .error err => .error err
        | .ok red => if red.After ed then .ok false else .ok true
  else .ok true

/-- The `fmt.Sprintf` call of `main`; a failing type assertion panics. -/
def message (LocationID : Int) (appointments body : JMap) : Except Err String :=
  match (appointments.index "date").assertString with
  | .error err => .error err
  | .ok date =>
    match (appointments.index "dayOfWeek").assertString with
    | .error err => .error err
    | .ok dayOfWeek =>
      match (body.index "startTm").assertString with
      | .error err => .error err
      | .ok startTm =>
        .ok ("Found appointment:\n\tlocation: " ++ toString LocationID ++ ", date: " ++
          date ++ " on " ++ dayOfWeek ++ ", time: " ++ startTm)

/-- The body of the loop of `main` for one location: the trace after it, and
the abort if the run stops there (`none`: on to the next location). -/
def iteration (cfg : Config) (exam : Exam) (headers : HttpHeader) (tr : Trace)
    (loc : Location) : Trace × Option Abort :=
  match Atoi loc.locationID with
  | none => (tr, some (.panic (.numError loc.locationID)))
  | some id =>
    let exam1 : Exam := { exam with LocationID := id }
    let tr1 := tr.println
      (.text ("querying free appointmens for location: " ++ toString id ++ "\n"))
    match headers.index "Authorization" with
    | [] => (tr1, some (.panic .indexOutOfRange))
    | auth :: _ =>
      let req := exam1.payload [{ Name := "Authorization", Value := auth }]
      let tr2 : Trace := { tr1 with queries := tr1.queries ++ [req] }
      match Exam.query loc.exam with
      | .error a => (tr2, some a)
      | .ok (_, _, some err) => (tr2.println (.error err), none)
      | .ok (body, _, none) =>
        match (body.index "appointmentDt").assertMap with
        | .error err => (tr2, some (.panic err))
        | .ok appointments =>
          match windowCheck cfg.endDate appointments with
          | .error err => (tr2, some (.panic err))
          | .ok false =>
            (tr2.println (.text "no appointments found matching the search criteria."),
              none)
          | .ok true =>
            match message id appointments body with
            | .error err => (tr2, some (.panic err))
            | .ok msg =>
              let tr3 := tr2.println (.text msg)
              if cfg.token ≠ "" ∧ cfg.user ≠ "" then
                let r := pushover cfg.token cfg.user msg loc.push
                let tr4 : Trace :=
                  { tr3 with log := tr3.log ++ r.1,
                             alerts := tr3.alerts ++ [(cfg.token, cfg.user, msg)] }
                match r.2 with
                | .error a => (tr4, some a)
                | .ok _ => (tr4, none)
              else (tr3, none)

/-- The loop of `main` over `locationIDs`. -/
def loop (cfg : Config) (exam : Exam) (headers : HttpHeader) :
    Trace → List Location → Trace × Option Abort
  | tr, [] => (tr, none)
  | tr, loc :: rest =>
    match iteration cfg exam headers tr loc with
    | (tr1, some a) => (tr1, some a)
    | (tr1, none) => loop cfg exam headers tr1 rest

/-- The trace of `main` before the loop. -/
def startTrace : Trace :=
  { log := [LogLine.text "logging into ICBC portal."], queries := [], alerts := [] }

/-- The `Exam` value `main` builds from its flags; `LocationID` is set anew in
every loop iteration. -/
def examOf (cfg : Config) : Exam :=
  { LocationID := 0, ExamType := cfg.examType, Date := cfg.startDate,
    IgnoreReserveTime := false, DaysOfWeek := "[0,1,2,3,4,5,6]", Time := "[0,1]",
    LastName := cfg.lastName, LicenseNumber := cfg.licenseNumber }

/-- The function `main` after flag parsing, given the outcome of the login
request and the locations with the outcomes of their requests: the trace
of the run and how it ends (`none`: it reaches the end of `main`).
Building the login request cannot fail (see `preparePayload`). -/
def main (cfg : Config) (loginResult : DoResult LoginResponse)
    (locationIDs : List Location) : Trace × Option Abort :=
  match Login.query loginResult with
  | .error a => (startTrace, some a)
  | .ok (_, _, some err) =>
    (startTrace, some (.fatal "failed logging into the portal: %s" err))
  | .ok (_, headers, none) => loop cfg (examOf cfg) headers startTrace locationIDs

/-! ## Reference definitions, written from the specification -/

namespace Spec

/-- A decimal digit character. -/
def digit (c : Char) : Bool := decide (c ∈ ['0', '1', '2', '3', '4', '5', '6', '7', '8', '9'])

/-- The value of a decimal digit character. -/
def digitValue (c : Char) : Nat := c.toNat - '0'.toNat

/-- Gregorian leap year. -/
def leapYear (y : Nat) : Bool := decide (y % 4 = 0 ∧ (y % 100 ≠ 0 ∨ y % 400 = 0))

/-- The number of days of month `m` of year `y` (0 for no month). -/
def monthLength (y m : Nat) : Nat :=
  if m = 2 then (if leapYear y then 29 else 28)
  else if m = 4 ∨ m = 6 ∨ m = 9 ∨ m = 11 then 30
  else if 1 ≤ m ∧ m ≤ 12 then 31
  else 0

/-- The calendar date `(year, month, day)` written by a valid `YYYY-MM-DD`
string; `none` for any other string. -/
def calendarDate (s : String) : Option (Nat × Nat × Nat) :=
  match s.data with
  | [y1, y2, y3, y4, h1, m1, m2, h2, d1, d2] =>
    if digit y1 ∧ digit y2 ∧ digit y3 ∧ digit y4 ∧ h1 = '-' ∧ digit m1 ∧ digit m2 ∧
        h2 = '-' ∧ digit d1 ∧ digit d2 then
      let y := 1000 * digitValue y1 + 100 * digitValue y2 + 10 * digitValue y3 + digitValue y4
      let m := 10 * digitValue m1 + digitValue m2
      let d := 10 * digitValue d1 + digitValue d2
      if 1 ≤ m ∧ m ≤ 12 ∧ 1 ≤ d ∧ d ≤ monthLength y m then some (y, m, d) else none
    else none
  | _ => none

/-- Date `a` is strictly after date `b` in the calendar. -/
def after (a b : Nat × Nat × Nat) : Bool :=
  decide (b.1 < a.1 ∨ (b.1 = a.1 ∧ (b.2.1 < a.2.1 ∨ (b.2.1 = a.2.1 ∧ b.2.2 < a.2.2))))

/-- The reference `satisfies(slot, window)`: with no end date the slot
passes, whatever its date; with an end date and both dates valid, the slot
passes unless its date is strictly after the end; it says nothing (`none`)
otherwise. -/
def satisfies (slotDate : Option String) (endDate : String) : Option Bool :=
  if endDate = "" then some true
  else
    match slotDate with
    | none => none
    | some sd =>
      match calendarDate endDate, calendarDate sd with
      | some e, some d => some (!after d e)
      | _, _ => none

/-- The date of a slot as decoded: the string under `date` of its
`appointmentDt` object, if there is one. -/
def slotDate (appointments : JMap) : Option String :=
  match appointments.index "date" with
  | .string s => some s
  | _ => none

/-- A slot: date, day-of-week label and start time. -/
structure SlotResult where
  date : String
  dayOfWeek : String
  startTm : String

/-- The slot a search outcome carries: element 0 of a successfully decoded,
non-empty sequence, with `appointmentDt.date`, `appointmentDt.dayOfWeek` and
`startTm` all strings. -/
def slotOf (r : DoResult ExamResponse) : Option SlotResult :=
  match r with
  | .error _ => none
  | .response resp =>
    match resp.decodeErr, resp.decodedBody with
    | none, body :: _ =>
      match body.index "appointmentDt" with
      | .object a =>
        match JMap.index a "date", JMap.index a "dayOfWeek", body.index "startTm" with
        | .string d, .string w, .string t => some ⟨d, w, t⟩
        | _, _, _ => none
      | _ => none
    | _, _ => none

/-- A well-formed search outcome: a successfully decoded sequence that is
empty (not found) or whose element 0 is a slot with a valid calendar date. -/
def wellFormed (r : DoResult ExamResponse) : Bool :=
  match r with
  | .error _ => false
  | .response resp =>
    resp.decodeErr.isNone &&
      (resp.decodedBody.isEmpty ||
        (match slotOf r with
          | some s => (calendarDate s.date).isSome
          | none => false))

/-- The fixed message template. -/
def template (id : Int) (s : SlotResult) : String :=
  "Found appointment:\n\tlocation: " ++ toString id ++ ", date: " ++ s.date ++ " on " ++
    s.dayOfWeek ++ ", time: " ++ s.startTm

/-- The message due for a location: the template filled from its identifier
and its slot when its query returns a slot that satisfies the window, none
otherwise. -/
def notification (endDate : String) (loc : Location) : Option String :=
  match slotOf loc.exam, Atoi loc.locationID with
  | some s, some id =>
    if satisfies (some s.date) endDate = some true then some (template id s) else none
  | _, _ => none

end Spec

/-! ## Auxiliary definitions used in the proofs -/

/-- ASCII decimal digit, by character code. -/
def isDig (c : Char) : Prop := 48 ≤ c.toNat ∧ c.toNat ≤ 57

instance (c : Char) : Decidable (isDig c) := by unfold isDig; infer_instance

/-- Days from the absolute epoch to a calendar date, as `Date` counts them. -/
def dayNumber (y m d : Nat) : Nat :=
  daysSinceEpoch (y : Int) + daysBefore.getD (m - 1) 0 +
    (if Spec.leapYear y = true ∧ 3 ≤ m then 1 else 0) + (d - 1)

/-- The day count of `daysSinceEpoch` for a year counted from the absolute epoch. -/
def cycleDays (Y : Nat) : Nat :=
  146097 * (Y / 400) + 36524 * (Y % 400 / 100) + 1461 * (Y % 400 % 100 / 4) +
    365 * (Y % 400 % 100 % 4)

/-- Days of the year before month `m` (`L`: leap year), as `Date` counts them. -/
def monthStart (L : Bool) (m : Nat) : Nat :=
  daysBefore.getD (m - 1) 0 + (if L = true ∧ 3 ≤ m then 1 else 0)

/-- A calendar date within the range of a four-digit year. -/
def ValidYMD (a : Nat × Nat × Nat) : Prop :=
  a.1 ≤ 9999 ∧ 1 ≤ a.2.1 ∧ a.2.1 ≤ 12 ∧ 1 ≤ a.2.2 ∧ a.2.2 ≤ Spec.monthLength a.1 a.2.1

/-! ## Traces and example values -/

/-- The trace after a loop iteration that issued its request: the
`querying` line is logged and the request recorded. -/
def queried (exam : Exam) (tr : Trace) (id : Int) (auth : String) : Trace :=
  { log := tr.log ++
      [LogLine.text ("querying free appointmens for location: " ++ toString id ++ "\n")],
    queries := tr.queries ++
      [Exam.payload { exam with LocationID := id } [{ Name := "Authorization", Value := auth }]],
    alerts := tr.alerts }

/-- A configuration used in the examples: end date 2024-03-01 and alert
credentials set. -/
def exampleConfig : Config :=
  ⟨"DOE", "1234567", "", "5-R-1", "2024-01-01", "2024-03-01", "tok", "usr"⟩

/-- The `Exam` value `main` builds from `exampleConfig`. -/
def exampleExam : Exam := examOf exampleConfig

/-- A login outcome used in the examples: decoded, with bearer token. -/
def exampleLogin : DoResult LoginResponse :=
  DoResult.response ⟨[("Authorization", ["Bearer abc"])], [], none⟩

/-- A decoded slot object with the given date. -/
def exampleSlot (date : String) : JMap :=
  [("appointmentDt",
      Value.object [("date", Value.string date), ("dayOfWeek", Value.string "Thursday")]),
    ("startTm", Value.string "09:35")]

/-- A search outcome with one slot of the given date. -/
def exampleFound (date : String) : DoResult ExamResponse :=
  DoResult.response ⟨[], [exampleSlot date], none⟩

/-- A search outcome with an empty sequence. -/
def exampleNotFound : DoResult ExamResponse := DoResult.response ⟨[], [], none⟩

/-- An alert outcome with status 200. -/
def examplePushOk : DoResult PostResponse := DoResult.response ⟨200, "", none⟩

/-- The trace after a loop iteration that called `pushover` with `msg`. -/
def notified (cfg : Config) (exam : Exam) (tr : Trace) (id : Int) (auth msg : String)
    (push : DoResult PostResponse) : Trace :=
  { log := ((queried exam tr id auth).println (LogLine.text msg)).log ++
      (pushover cfg.token cfg.user msg push).1,
    queries := (queried exam tr id auth).queries,
    alerts := tr.alerts ++ [(cfg.token, cfg.user, msg)] }

/-! ## The Go date parser against the calendar -/

theorem char_eq_of_toNat {c : Char} {n : Nat} (h : c.toNat = n) : c = Char.ofNat n := by
  rw [← h, Char.ofNat_toNat]

theorem digit_iff (c : Char) : Spec.digit c = true ↔ isDig c := by
  unfold Spec.digit isDig
  constructor
  · intro h
    simp only [decide_eq_true_eq, List.mem_cons, List.mem_singleton, List.not_mem_nil, or_false] at h
    rcases h with h | h | h | h | h | h | h | h | h | h <;> subst h <;> decide
  · intro ⟨h1, h2⟩
    simp only [decide_eq_true_eq, List.mem_cons, List.mem_singleton, List.not_mem_nil, or_false]
    have : c.toNat = 48 ∨ c.toNat = 49 ∨ c.toNat = 50 ∨ c.toNat = 51 ∨ c.toNat = 52 ∨
        c.toNat = 53 ∨ c.toNat = 54 ∨ c.toNat = 55 ∨ c.toNat = 56 ∨ c.toNat = 57 := by omega
    rcases this with h | h | h | h | h | h | h | h | h | h
    all_goals (have h3 := char_eq_of_toNat h; subst h3; decide)

theorem isDig_ne_minus {c : Char} (h : isDig c) : c ≠ '-' := by
  rintro rfl
  revert h; decide

theorem isDig_ne_plus {c : Char} (h : isDig c) : c ≠ '+' := by
  rintro rfl
  revert h; decide

theorem isDigit_zero (c : Char) (t : List Char) : isDigit (c :: t) 0 = decide (isDig c) := by
  simp [isDigit, isDig]

theorem isDigit_one (c d : Char) (t : List Char) : isDigit (c :: d :: t) 1 = decide (isDig d) := by
  simp [isDigit, isDig]

theorem getnum_two (c d : Char) (t : List Char) :
    getnum (c :: d :: t) true =
      if isDig c ∧ isDig d then some ((c.toNat - 48) * 10 + (d.toNat - 48), t) else none := by
  unfold getnum
  rw [isDigit_zero, isDigit_one]
  by_cases hc : isDig c <;> by_cases hd : isDig d <;> simp [hc, hd]

theorem getnum_short (s : List Char) (h : s.length < 2) : getnum s true = none := by
  match s, h with
  | [], _ => simp [getnum, isDigit]
  | [c], _ => simp [getnum, isDigit]

theorem leadingIntLoop_digit (c : Char) (s : List Char) (x : Nat) (hc : isDig c)
    (hx : x ≤ 1000) :
    leadingIntLoop (c :: s) x = leadingIntLoop s (x * 10 + (c.toNat - 48)) := by
  unfold isDig at hc
  rw [leadingIntLoop]
  have h1 : ¬ (c.toNat < 48 ∨ c.toNat > 57) := by omega
  have h2 : ¬ (x > 2 ^ 63 / 10) := by omega
  have h3 : (x * 10 + c.toNat - 48) % 2 ^ 64 = x * 10 + (c.toNat - 48) := by omega
  have h4 : ¬ (x * 10 + (c.toNat - 48) > 2 ^ 63) := by omega
  simp only [h1, h2, h3, h4, if_false]

theorem leadingIntLoop_nondigit (c : Char) (s : List Char) (x : Nat) (hc : ¬ isDig c) :
    leadingIntLoop (c :: s) x = some (x, c :: s) := by
  unfold isDig at hc
  rw [leadingIntLoop]
  have h1 : c.toNat < 48 ∨ c.toNat > 57 := by omega
  simp only [h1, if_true]

theorem wrapInt64_small (x : Int) (h1 : -2 ^ 63 ≤ x) (h2 : x < 2 ^ 63) : wrapInt64 x = x := by
  unfold wrapInt64
  omega

theorem atoi_four (a b c d : Char) (ha : isDig a) :
    atoi [a, b, c, d] =
      if isDig b ∧ isDig c ∧ isDig d then
        some (((((a.toNat - 48) * 10 + (b.toNat - 48)) * 10 + (c.toNat - 48)) * 10 +
          (d.toNat - 48) : Nat) : Int)
      else none := by
  have hm := isDig_ne_minus ha
  have hp := isDig_ne_plus ha
  have ha1 : a.toNat - 48 ≤ 9 := by unfold isDig at ha; omega
  unfold atoi leadingInt
  simp only [hm, hp, or_self, if_false, decide_False]
  rw [leadingIntLoop_digit a _ 0 ha (by omega)]
  by_cases hb : isDig b
  · have hb1 : b.toNat - 48 ≤ 9 := by unfold isDig at hb; omega
    rw [leadingIntLoop_digit b _ _ hb (by omega)]
    by_cases hc : isDig c
    · have hc1 : c.toNat - 48 ≤ 9 := by unfold isDig at hc; omega
      rw [leadingIntLoop_digit c _ _ hc (by omega)]
      by_cases hd : isDig d
      · have hd1 : d.toNat - 48 ≤ 9 := by unfold isDig at hd; omega
        rw [leadingIntLoop_digit d _ _ hd (by omega)]
        simp only [leadingIntLoop, List.length_nil, lt_self_iff_false, if_false, hb, hc, hd,
          and_self, if_true, Bool.false_eq_true]
        rw [wrapInt64_small _ (by omega) (by omega)]
        simp
      · rw [leadingIntLoop_nondigit d _ _ hd]
        simp [hd]
    · rw [leadingIntLoop_nondigit c _ _ hc]
      simp [hc]
  · rw [leadingIntLoop_nondigit b _ _ hb]
    simp [hb]

theorem digitValue_eq (c : Char) : Spec.digitValue c = c.toNat - 48 := rfl

theorem isLeap_eq (y : Nat) : isLeap (y : Int) = Spec.leapYear y := by
  unfold isLeap Spec.leapYear
  have h4 : Int.tmod (y : Int) 4 = ((y % 4 : Nat) : Int) := by
    rw [Int.tmod_eq_emod (by omega) (by omega)]; omega
  have h100 : Int.tmod (y : Int) 100 = ((y % 100 : Nat) : Int) := by
    rw [Int.tmod_eq_emod (by omega) (by omega)]; omega
  have h400 : Int.tmod (y : Int) 400 = ((y % 400 : Nat) : Int) := by
    rw [Int.tmod_eq_emod (by omega) (by omega)]; omega
  rw [h4, h100, h400, Bool.eq_iff_iff]
  simp only [Bool.and_eq_true, Bool.or_eq_true, decide_eq_true_eq, ne_eq]
  omega

theorem daysIn_eq (m y : Nat) (h1 : 1 ≤ m) (h2 : m ≤ 12) :
    daysIn m (y : Int) = Spec.monthLength y m := by
  unfold daysIn Spec.monthLength
  rw [isLeap_eq]
  have : m = 1 ∨ m = 2 ∨ m = 3 ∨ m = 4 ∨ m = 5 ∨ m = 6 ∨ m = 7 ∨ m = 8 ∨ m = 9 ∨ m = 10 ∨
      m = 11 ∨ m = 12 := by omega
  rcases this with h | h | h | h | h | h | h | h | h | h | h | h <;> subst h <;>
    cases Spec.leapYear y <;> simp [daysBefore]

theorem skip_dash (r : List Char) :
    skip r ['-'] = match r with
      | [] => none
      | h :: t => if h = '-' then some t else none := by
  cases r with
  | nil => rfl
  | cons h t => by_cases hh : h = '-' <;> simp [skip, hh]

theorem getnum_nil : getnum [] true = none := getnum_short [] (by simp)

theorem getnum_one (c : Char) : getnum [c] true = none := getnum_short [c] (by simp)

theorem Parse_eq (s : String) :
    Parse s = match Spec.calendarDate s with
      | some (y, m, d) => Except.ok (Date y m d)
      | none => Except.error (Err.parseTime s) := by
  obtain ⟨l⟩ := s
  unfold Parse Spec.calendarDate
  simp only []
  rcases l with _ | ⟨y1, _ | ⟨y2, _ | ⟨y3, _ | ⟨y4, r⟩⟩⟩⟩
  · simp
  · simp
  · simp
  · simp
  · by_cases hy1 : isDig y1
    swap
    · simp [isDigit_zero, hy1, digit_iff]
      rcases r with _ | ⟨h1, _ | ⟨m1, _ | ⟨m2, _ | ⟨h2, _ | ⟨d1, _ | ⟨d2, _ | ⟨x, r⟩⟩⟩⟩⟩⟩⟩ <;> simp [hy1]
    · have hlen : ¬ ((y1 :: y2 :: y3 :: y4 :: r).length < 4) := by simp
      simp only [isDigit_zero, hy1, decide_True, Bool.not_true, Bool.or_false, decide_eq_true_eq,
        hlen, if_false, List.take_succ_cons, List.take_zero, List.drop_succ_cons, List.drop_zero,
        atoi_four y1 y2 y3 y4 hy1, skip_dash]
      rcases r with _ | ⟨h1, _ | ⟨m1, _ | ⟨m2, _ | ⟨h2, _ | ⟨d1, _ | ⟨d2, _ | ⟨x, r⟩⟩⟩⟩⟩⟩⟩
      · split_ifs <;> rfl
      · by_cases hh : h1 = '-' <;> split_ifs <;> simp [hh, getnum_nil]
      · by_cases hh : h1 = '-' <;> split_ifs <;> simp [hh, getnum_one]
      · by_cases hh : h1 = '-' <;> by_cases hm : isDig m1 ∧ isDig m2 <;>
          split_ifs <;> simp [hh, hm, getnum_two]
      · by_cases hh : h1 = '-' <;> by_cases hm : isDig m1 ∧ isDig m2 <;>
          by_cases hh2 : h2 = '-' <;>
          split_ifs <;> simp [hh, hm, hh2, getnum_two, getnum_nil]
      · by_cases hh : h1 = '-' <;> by_cases hm : isDig m1 ∧ isDig m2 <;>
          by_cases hh2 : h2 = '-' <;>
          split_ifs <;> simp [hh, hm, hh2, getnum_two, getnum_one]
      · simp only [digit_iff, digitValue_eq, hy1, true_and]
        by_cases hy : isDig y2 ∧ isDig y3 ∧ isDig y4
        swap
        · have hn : ¬ (isDig y2 ∧ isDig y3 ∧ isDig y4 ∧ h1 = '-' ∧ isDig m1 ∧ isDig m2 ∧
            h2 = '-' ∧ isDig d1 ∧ isDig d2) := by tauto
          rw [if_neg hy, if_neg hn]
        · by_cases hh1 : h1 = '-'
          swap
          · have hn : ¬ (isDig y2 ∧ isDig y3 ∧ isDig y4 ∧ h1 = '-' ∧ isDig m1 ∧ isDig m2 ∧
              h2 = '-' ∧ isDig d1 ∧ isDig d2) := by tauto
            rw [if_pos hy, if_neg hn, if_neg hh1]
          · by_cases hm : isDig m1 ∧ isDig m2
            swap
            · have hn : ¬ (isDig y2 ∧ isDig y3 ∧ isDig y4 ∧ h1 = '-' ∧ isDig m1 ∧ isDig m2 ∧
                h2 = '-' ∧ isDig d1 ∧ isDig d2) := by tauto
              rw [if_pos hy, if_neg hn, if_pos hh1]
              simp only [getnum_two, if_neg hm]
            · by_cases hh2 : h2 = '-'
              swap
              · have hn : ¬ (isDig y2 ∧ isDig y3 ∧ isDig y4 ∧ h1 = '-' ∧ isDig m1 ∧ isDig m2 ∧
                    h2 = '-' ∧ isDig d1 ∧ isDig d2) := by tauto
                rw [if_pos hy, if_neg hn, if_pos hh1]
                simp only [getnum_two, if_pos hm, if_neg hh2]
                split_ifs <;> rfl
              · by_cases hd : isDig d1 ∧ isDig d2
                swap
                · have hn : ¬ (isDig y2 ∧ isDig y3 ∧ isDig y4 ∧ h1 = '-' ∧ isDig m1 ∧
                      isDig m2 ∧ h2 = '-' ∧ isDig d1 ∧ isDig d2) := by tauto
                  rw [if_pos hy, if_neg hn, if_pos hh1]
                  simp only [getnum_two, if_pos hm, if_pos hh2, if_neg hd]
                  split_ifs <;> rfl
                · have hyes : isDig y2 ∧ isDig y3 ∧ isDig y4 ∧ h1 = '-' ∧ isDig m1 ∧
                      isDig m2 ∧ h2 = '-' ∧ isDig d1 ∧ isDig d2 := by tauto
                  rw [if_pos hy, if_pos hyes, if_pos hh1]
                  simp only [getnum_two, if_pos hm, if_pos hh2, if_pos hd]
                  have hyear : (((y1.toNat - 48) * 10 + (y2.toNat - 48)) * 10 + (y3.toNat - 48)) * 10
                      + (y4.toNat - 48) = 1000 * (y1.toNat - 48) + 100 * (y2.toNat - 48) +
                      10 * (y3.toNat - 48) + (y4.toNat - 48) := by omega
                  have hmonth : (m1.toNat - 48) * 10 + (m2.toNat - 48) =
                      10 * (m1.toNat - 48) + (m2.toNat - 48) := by omega
                  have hday : (d1.toNat - 48) * 10 + (d2.toNat - 48) =
                      10 * (d1.toNat - 48) + (d2.toNat - 48) := by omega
                  rw [hyear, hmonth, hday]
                  generalize 1000 * (y1.toNat - 48) + 100 * (y2.toNat - 48) +
                      10 * (y3.toNat - 48) + (y4.toNat - 48) = year
                  generalize 10 * (m1.toNat - 48) + (m2.toNat - 48) = month
                  generalize 10 * (d1.toNat - 48) + (d2.toNat - 48) = day
                  by_cases hr : month ≤ 0 ∨ 12 < month
                  · have hn : ¬ (1 ≤ month ∧ month ≤ 12 ∧ 1 ≤ day ∧
                        day ≤ Spec.monthLength year month) := by omega
                    rw [if_pos hr, if_neg hn]
                  · rw [if_neg hr, daysIn_eq month year (by omega) (by omega)]
                    simp only [List.length_nil, ne_eq, not_true_eq_false, if_false]
                    by_cases hv : day < 1 ∨ day > Spec.monthLength year month
                    · have hn : ¬ (1 ≤ month ∧ month ≤ 12 ∧ 1 ≤ day ∧
                          day ≤ Spec.monthLength year month) := by omega
                      rw [if_pos hv, if_neg hn]
                    · have hp : 1 ≤ month ∧ month ≤ 12 ∧ 1 ≤ day ∧
                          day ≤ Spec.monthLength year month := by omega
                      rw [if_neg hv, if_pos hp]
      · by_cases hh : h1 = '-' <;> by_cases hm : isDig m1 ∧ isDig m2 <;>
          by_cases hh2 : h2 = '-' <;> by_cases hd : isDig d1 ∧ isDig d2 <;>
          split_ifs <;> simp [hh, hm, hh2, hd, getnum_two]

theorem daysSinceEpoch_eq (y : Nat) (hy : y ≤ 10000) :
    daysSinceEpoch (y : Int) = cycleDays (y + 292277022399) := by
  unfold daysSinceEpoch absoluteZeroYear cycleDays
  have e2 : ((y : Int) - -292277022399) % 2 ^ 64 = ((y + 292277022399 : Nat) : Int) := by
    omega
  simp only [e2, Int.toNat_ofNat]
  have hb : y + 292277022399 ≤ 292277032399 := by omega
  generalize y + 292277022399 = Y at *
  have h1 : Y - 400 * (Y / 400) = Y % 400 := by omega
  have h2 : Y % 400 - 100 * (Y % 400 / 100) = Y % 400 % 100 := by omega
  have h3 : Y % 400 % 100 - 4 * (Y % 400 % 100 / 4) = Y % 400 % 100 % 4 := by omega
  rw [h1, h2, h3]
  apply Nat.mod_eq_of_lt
  omega

theorem cycleDays_succ (Y : Nat) :
    cycleDays (Y + 1) = cycleDays Y + 365 +
      (if (Y + 1) % 4 = 0 ∧ ((Y + 1) % 100 ≠ 0 ∨ (Y + 1) % 400 = 0) then 1 else 0) := by
  unfold cycleDays
  split_ifs with h <;> omega

theorem daysSinceEpoch_succ (y : Nat) (hy : y ≤ 9999) :
    daysSinceEpoch ((y + 1 : Nat) : Int) =
      daysSinceEpoch (y : Int) + 365 + (if Spec.leapYear y = true then 1 else 0) := by
  rw [daysSinceEpoch_eq y (by omega), daysSinceEpoch_eq (y + 1) (by omega)]
  have e : y + 1 + 292277022399 = (y + 292277022399) + 1 := by omega
  rw [e, cycleDays_succ]
  unfold Spec.leapYear
  simp only [decide_eq_true_eq]
  congr 1
  split_ifs with h1 h2 h2 <;> first | rfl | omega

theorem daysSinceEpoch_bound (y : Nat) (hy : y ≤ 9999) :
    106751990353566 ≤ daysSinceEpoch (y : Int) ∧ daysSinceEpoch (y : Int) ≤ 106751994005626 := by
  rw [daysSinceEpoch_eq y (by omega)]
  unfold cycleDays
  omega

theorem daysSinceEpoch_lt (y1 y2 : Nat) (h : y1 < y2) (hy : y2 ≤ 9999) :
    daysSinceEpoch (y1 : Int) + 365 + (if Spec.leapYear y1 = true then 1 else 0) ≤
      daysSinceEpoch (y2 : Int) := by
  induction y2 with
  | zero => omega
  | succ n ih =>
    rcases Nat.lt_succ_iff_lt_or_eq.mp h with h1 | h1
    · have := ih h1 (by omega)
      have hs := daysSinceEpoch_succ n (by omega)
      rw [hs]; omega
    · subst h1
      rw [daysSinceEpoch_succ y1 (by omega)]

theorem norm_id (hi lo : Int) (h0 : 0 ≤ lo) (h1 : lo < 12) : norm hi lo 12 = (hi, lo) := by
  unfold norm
  have a : ¬ (lo < 0) := by omega
  have b : ¬ (lo ≥ 12) := by omega
  simp only [a, b, if_false]

theorem daysBefore_le (k : Nat) : daysBefore.getD k 0 ≤ 365 := by
  unfold daysBefore
  rcases k with _ | _ | _ | _ | _ | _ | _ | _ | _ | _ | _ | _ | _ | k <;> simp

theorem Date_eq (y m d : Nat) (hy : y ≤ 9999) (hm1 : 1 ≤ m) (hm2 : m ≤ 12) (hd1 : 1 ≤ d)
    (hd2 : d ≤ 31) :
    Date (y : Int) (m : Int) (d : Int) =
      { sec := 86400 * (dayNumber y m d : Int) - 9223371966579724800, nsec := 0 } := by
  unfold Date
  rw [norm_id _ _ (by omega) (by omega)]
  simp only [isLeap_eq]
  have hb := daysSinceEpoch_bound y hy
  have hk := daysBefore_le (m - 1)
  have e1 : ((m : Int) - 1 + 1 - 1).toNat = m - 1 := by omega
  have e2 : ((m : Int) - 1 + 1 ≥ 3) ↔ 3 ≤ m := by omega
  simp only [e1, e2]
  unfold dayNumber
  generalize daysSinceEpoch (y : Int) = S at *
  generalize daysBefore.getD (m - 1) 0 = B at *
  unfold wrapInt64
  congr 1
  split_ifs with h <;> omega

theorem monthStart_mono : ∀ L : Bool, ∀ m1 < 13, ∀ m2 < 14, 1 ≤ m1 → m1 < m2 →
    monthStart L (m1 + 1) ≤ monthStart L m2 := by
  decide

theorem monthStart_length : ∀ L : Bool, ∀ m < 13, 1 ≤ m →
    monthStart L m + (if m = 2 then (if L = true then 29 else 28)
      else if m = 4 ∨ m = 6 ∨ m = 9 ∨ m = 11 then 30 else 31) = monthStart L (m + 1) := by
  decide

theorem monthStart_end : ∀ L : Bool, monthStart L 13 = 365 + (if L = true then 1 else 0) := by
  decide

theorem dayNumber_eq (y m d : Nat) :
    dayNumber y m d = daysSinceEpoch (y : Int) + monthStart (Spec.leapYear y) m + (d - 1) := by
  unfold dayNumber monthStart
  omega

theorem monthLength_eq (y m : Nat) (h1 : 1 ≤ m) (h2 : m ≤ 12) :
    Spec.monthLength y m = (if m = 2 then (if Spec.leapYear y = true then 29 else 28)
      else if m = 4 ∨ m = 6 ∨ m = 9 ∨ m = 11 then 30 else 31) := by
  unfold Spec.monthLength
  have : 1 ≤ m ∧ m ≤ 12 := ⟨h1, h2⟩
  simp only [this, and_self, if_true]

theorem monthLength_le (y m : Nat) : Spec.monthLength y m ≤ 31 := by
  unfold Spec.monthLength
  split_ifs <;> omega

theorem dayNumber_lt (a b : Nat × Nat × Nat) (ha : ValidYMD a) (hb : ValidYMD b)
    (h : Spec.after b a = true) : dayNumber a.1 a.2.1 a.2.2 < dayNumber b.1 b.2.1 b.2.2 := by
  obtain ⟨y1, m1, d1⟩ := a
  obtain ⟨y2, m2, d2⟩ := b
  unfold ValidYMD at ha hb
  unfold Spec.after at h
  simp only [decide_eq_true_eq] at h ha hb ⊢
  rw [dayNumber_eq, dayNumber_eq]
  have l1 := monthStart_length (Spec.leapYear y1) m1 (by omega) (by omega)
  rw [← monthLength_eq y1 m1 (by omega) (by omega)] at l1
  rcases h with h | ⟨h, h2⟩
  · have s := daysSinceEpoch_lt y1 y2 h (by omega)
    have e := monthStart_end (Spec.leapYear y1)
    have mm : monthStart (Spec.leapYear y1) (m1 + 1) ≤ monthStart (Spec.leapYear y1) 13 := by
      rcases Nat.lt_or_ge m1 12 with h12 | h12
      · exact monthStart_mono _ m1 (by omega) 13 (by omega) (by omega) (by omega)
      · have : m1 = 12 := by omega
        subst this; exact le_refl _
    omega
  · subst h
    rcases h2 with h2 | ⟨h2, h3⟩
    · have mm := monthStart_mono (Spec.leapYear y1) m1 (by omega) m2 (by omega) (by omega) h2
      omega
    · subst h2
      omega

theorem After_eq (a b : Nat × Nat × Nat) (ha : ValidYMD a) (hb : ValidYMD b) :
    (Date (a.1 : Int) (a.2.1 : Int) (a.2.2 : Int)).After
        (Date (b.1 : Int) (b.2.1 : Int) (b.2.2 : Int)) = Spec.after a b := by
  have la := monthLength_le a.1 a.2.1
  have lb := monthLength_le b.1 b.2.1
  rw [Date_eq _ _ _ ha.1 ha.2.1 ha.2.2.1 ha.2.2.2.1 (le_trans ha.2.2.2.2 la),
    Date_eq _ _ _ hb.1 hb.2.1 hb.2.2.1 hb.2.2.2.1 (le_trans hb.2.2.2.2 lb)]
  unfold Time.After
  simp only [gt_iff_lt, lt_self_iff_false, decide_False, Bool.and_false, Bool.or_false]
  by_cases h : Spec.after a b = true
  · have := dayNumber_lt b a hb ha h
    rw [h, decide_eq_true_eq]
    omega
  · have h1 : Spec.after a b = false := by simpa using h
    rw [h1, decide_eq_false_iff_not]
    by_cases h2 : Spec.after b a = true
    · have := dayNumber_lt a b ha hb h2
      omega
    · have h3 : Spec.after b a = false := by simpa using h2
      have : a = b := by
        obtain ⟨y1, m1, d1⟩ := a
        obtain ⟨y2, m2, d2⟩ := b
        unfold Spec.after at h1 h3
        simp only [decide_eq_false_iff_not] at h1 h3
        have : y1 = y2 ∧ m1 = m2 ∧ d1 = d2 := by omega
        simp [this]
      subst this
      omega

/-! ## The window test, the queries and the run -/

theorem calendarDate_valid (s : String) (a : Nat × Nat × Nat)
    (h : Spec.calendarDate s = some a) : ValidYMD a := by
  obtain ⟨l⟩ := s
  unfold Spec.calendarDate at h
  simp only [] at h
  split at h
  · split_ifs at h with h1 h2
    · injection h with h
      subst h
      have d1 := (digit_iff _).mp h1.1
      have d2 := (digit_iff _).mp h1.2.1
      have d3 := (digit_iff _).mp h1.2.2.1
      have d4 := (digit_iff _).mp h1.2.2.2.1
      unfold isDig at d1 d2 d3 d4
      unfold ValidYMD
      simp only [digitValue_eq] at h2 ⊢
      refine ⟨by omega, h2.1, h2.2.1, h2.2.2.1, h2.2.2.2⟩
  · exact absurd h (by simp)

theorem Parse_valid (s : String) (a : Nat × Nat × Nat) (h : Spec.calendarDate s = some a) :
    Parse s = Except.ok (Date (a.1 : Int) (a.2.1 : Int) (a.2.2 : Int)) := by
  rw [Parse_eq, h]

theorem Parse_invalid (s : String) (h : Spec.calendarDate s = none) :
    Parse s = Except.error (Err.parseTime s) := by
  rw [Parse_eq, h]

theorem windowCheck_unset (appointments : JMap) : windowCheck "" appointments = Except.ok true := by
  unfold windowCheck
  simp

theorem windowCheck_valid (endDate sd : String) (appointments : JMap) (e d : Nat × Nat × Nat)
    (hne : endDate ≠ "") (he : Spec.calendarDate endDate = some e)
    (hs : appointments.index "date" = Value.string sd) (hd : Spec.calendarDate sd = some d) :
    windowCheck endDate appointments = Except.ok (!Spec.after d e) := by
  unfold windowCheck
  rw [if_pos hne, Parse_valid _ _ he, hs]
  simp only [Value.assertString]
  rw [Parse_valid _ _ hd]
  simp only [After_eq d e (calendarDate_valid _ _ hd) (calendarDate_valid _ _ he)]
  cases Spec.after d e <;> simp

theorem windowCheck_invalid_end (endDate : String) (appointments : JMap)
    (hne : endDate ≠ "") (he : Spec.calendarDate endDate = none) :
    windowCheck endDate appointments = Except.error (Err.parseTime endDate) := by
  unfold windowCheck
  rw [if_pos hne, Parse_invalid _ he]

theorem windowCheck_of_satisfies (endDate : String) (appointments : JMap) (b : Bool)
    (h : Spec.satisfies (Spec.slotDate appointments) endDate = some b) :
    windowCheck endDate appointments = Except.ok b := by
  unfold Spec.satisfies at h
  by_cases hne : endDate = ""
  · subst hne
    simp only [if_true, Option.some.injEq] at h
    subst h
    exact windowCheck_unset appointments
  · rw [if_neg hne] at h
    unfold Spec.slotDate at h
    cases hv : appointments.index "date" with
    | string sd =>
      rw [hv] at h
      simp only [] at h
      cases he : Spec.calendarDate endDate with
      | none => rw [he] at h; simp at h
      | some e =>
        cases hd : Spec.calendarDate sd with
        | none => rw [he, hd] at h; simp at h
        | some d =>
          rw [he, hd] at h
          simp only [Option.some.injEq] at h
          subst h
          exact windowCheck_valid endDate sd appointments e d hne he hv hd
    | null => rw [hv] at h; simp at h
    | bool _ => rw [hv] at h; simp at h
    | number _ => rw [hv] at h; simp at h
    | array _ => rw [hv] at h; simp at h
    | object _ => rw [hv] at h; simp at h

/-- C1: the window test applied in `main` to a returned slot agrees with the
reference `satisfies(slot, window)` wherever the reference is defined: with
no end date the slot passes whatever its date, and with an end date and both
dates valid `YYYY-MM-DD` calendar dates the slot is rejected exactly when its
date is strictly after the end date. -/
theorem window_check_refines_satisfies (endDate : String) (appointments : JMap) (b : Bool)
    (h : Spec.satisfies (Spec.slotDate appointments) endDate = some b) :
    windowCheck endDate appointments = Except.ok b :=
  windowCheck_of_satisfies endDate appointments b h

/-- The scenarios of C1: with end date 2024-03-01 a slot dated 2024-02-15
passes, a slot dated 2024-03-15 is rejected, and a slot dated on the end date
itself passes; without end date a slot without any date passes. -/
theorem window_check_scenarios :
    (Spec.satisfies (Spec.slotDate [("date", Value.string "2024-02-15")]) "2024-03-01" = some true ∧
      windowCheck "2024-03-01" [("date", Value.string "2024-02-15")] = Except.ok true) ∧
    (Spec.satisfies (Spec.slotDate [("date", Value.string "2024-03-15")]) "2024-03-01" = some false ∧
      windowCheck "2024-03-01" [("date", Value.string "2024-03-15")] = Except.ok false) ∧
    (Spec.satisfies (Spec.slotDate [("date", Value.string "2024-03-01")]) "2024-03-01" = some true ∧
      windowCheck "2024-03-01" [("date", Value.string "2024-03-01")] = Except.ok true) ∧
    (Spec.satisfies (Spec.slotDate []) "" = some true ∧
      windowCheck "" [] = Except.ok true) :=
  ⟨⟨by decide, window_check_refines_satisfies _ _ _ (by decide)⟩,
   ⟨by decide, window_check_refines_satisfies _ _ _ (by decide)⟩,
   ⟨by decide, window_check_refines_satisfies _ _ _ (by decide)⟩,
   ⟨by decide, window_check_refines_satisfies _ _ _ (by decide)⟩⟩

theorem windowCheck_pass_end (endDate : String) (appointments : JMap)
    (hne : endDate ≠ "") (h : windowCheck endDate appointments = Except.ok true) :
    ∃ e, Spec.calendarDate endDate = some e := by
  cases he : Spec.calendarDate endDate with
  | some e => exact ⟨e, rfl⟩
  | none =>
    rw [windowCheck_invalid_end endDate appointments hne he] at h
    exact absurd h (by simp)

/-- C10: the window test is monotonic in the slot date.  For every end date
`E` and slots dated with valid calendar dates `D'` and `D`, `D'` not after
`D`: if the slot dated `D` passes the window ending at `E`, so does the slot
dated `D'`; and with no end date every slot passes. -/
theorem window_check_monotone (E D D' : String) (slot slot' : JMap) (a a' : Nat × Nat × Nat)
    (hs : slot.index "date" = Value.string D) (hs' : slot'.index "date" = Value.string D')
    (hD : Spec.calendarDate D = some a) (hD' : Spec.calendarDate D' = some a')
    (hle : Spec.after a' a = false)
    (h : windowCheck E slot = Except.ok true) :
    windowCheck E slot' = Except.ok true ∧
      (∀ anySlot : JMap, windowCheck "" anySlot = Except.ok true) := by
  refine ⟨?_, windowCheck_unset⟩
  by_cases hne : E = ""
  · subst hne
    exact windowCheck_unset slot'
  · obtain ⟨e, he⟩ := windowCheck_pass_end E slot hne h
    rw [windowCheck_valid E D slot e a hne he hs hD] at h
    rw [windowCheck_valid E D' slot' e a' hne he hs' hD']
    have h1 : Spec.after a e = false := by
      cases hh : Spec.after a e
      · rfl
      · rw [hh] at h; simp at h
    have h2 : Spec.after a' e = false := by
      unfold Spec.after at hle h1 ⊢
      simp only [decide_eq_false_iff_not] at hle h1 ⊢
      omega
    rw [h2]
    rfl

/-- An instance of C10: end date 2024-03-01, slots dated 2024-02-15 and
2024-02-10. -/
theorem window_check_monotone_witness :
    windowCheck "2024-03-01" [("date", Value.string "2024-02-15")] = Except.ok true ∧
    Spec.after (2024, 2, 10) (2024, 2, 15) = false ∧
    windowCheck "2024-03-01" [("date", Value.string "2024-02-10")] = Except.ok true :=
  ⟨rfl, by decide,
    (window_check_monotone "2024-03-01" "2024-02-15" "2024-02-10"
      [("date", Value.string "2024-02-15")] [("date", Value.string "2024-02-10")]
      (2024, 2, 15) (2024, 2, 10) rfl rfl (by decide) (by decide) (by decide) rfl).1⟩

theorem iteration_error_value (cfg : Config) (exam : Exam) (headers : HttpHeader) (tr : Trace)
    (loc : Location) (id : Int) (auth : String) (rest : List String) (body : JMap)
    (hdr : HttpHeader) (err : Err)
    (hid : Atoi loc.locationID = some id) (hauth : headers.index "Authorization" = auth :: rest)
    (hq : Exam.query loc.exam = Except.ok (body, hdr, some err)) :
    iteration cfg exam headers tr loc =
      ((queried exam tr id auth).println (LogLine.error err), none) := by
  unfold iteration
  simp only [hid, hauth, hq]
  rfl

/-- C2: for a successfully decoded response sequence `Exam.query` surfaces at
most one slot.  An empty sequence yields the not-found outcome: no slot and
the error value `no appointments found matching the search criteria.`;
`main` logs it and goes on to the next location without calling the alert
sink.  A non-empty sequence yields its element 0 and no error, whatever its
tail. -/
theorem query_surfaces_first_or_not_found (hdr : HttpHeader) (cfg : Config) (exam : Exam)
    (headers : HttpHeader) (tr : Trace) (locationID : String) (push : DoResult PostResponse)
    (id : Int) (auth : String) (rest : List String)
    (hid : Atoi locationID = some id) (hauth : headers.index "Authorization" = auth :: rest) :
    Exam.query (DoResult.response ⟨hdr, [], none⟩) =
        Except.ok ([], hdr,
          some (Err.errorf "no appointments found matching the search criteria.")) ∧
    iteration cfg exam headers tr ⟨locationID, DoResult.response ⟨hdr, [], none⟩, push⟩ =
        ((queried exam tr id auth).println
          (LogLine.error (Err.errorf "no appointments found matching the search criteria.")),
          none) ∧
    (iteration cfg exam headers tr
        ⟨locationID, DoResult.response ⟨hdr, [], none⟩, push⟩).1.alerts = tr.alerts ∧
    (∀ (b : JMap) (tail : List JMap),
        Exam.query (DoResult.response ⟨hdr, b :: tail, none⟩) = Except.ok (b, hdr, none)) ∧
    (∀ (b : JMap) (tail tail' : List JMap),
        Exam.query (DoResult.response ⟨hdr, b :: tail, none⟩) =
          Exam.query (DoResult.response ⟨hdr, b :: tail', none⟩)) := by
  have h1 : Exam.query (DoResult.response ⟨hdr, [], none⟩) =
      Except.ok ([], hdr,
        some (Err.errorf "no appointments found matching the search criteria.")) := rfl
  have h2 := iteration_error_value cfg exam headers tr
    ⟨locationID, DoResult.response ⟨hdr, [], none⟩, push⟩ id auth rest [] hdr _ hid hauth h1
  refine ⟨h1, h2, ?_, fun b tail => rfl, fun b tail tail' => rfl⟩
  rw [h2]
  rfl

/-- An instance of C2: location 9, bearer token `abc`, empty trace. -/
theorem query_surfaces_first_or_not_found_witness :
    Atoi "9" = some 9 ∧
    (iteration exampleConfig exampleExam [("Authorization", ["abc"])] ⟨[], [], []⟩
        ⟨"9", DoResult.response ⟨[], [], none⟩, DoResult.response ⟨200, "", none⟩⟩).2 = none ∧
    (iteration exampleConfig exampleExam [("Authorization", ["abc"])] ⟨[], [], []⟩
        ⟨"9", DoResult.response ⟨[], [], none⟩, DoResult.response ⟨200, "", none⟩⟩).1.alerts
      = [] :=
  ⟨by decide,
   by rw [(query_surfaces_first_or_not_found [] exampleConfig exampleExam
        [("Authorization", ["abc"])] ⟨[], [], []⟩ "9" (DoResult.response ⟨200, "", none⟩)
        9 "abc" [] (by decide) rfl).2.1],
   (query_surfaces_first_or_not_found [] exampleConfig exampleExam
        [("Authorization", ["abc"])] ⟨[], [], []⟩ "9" (DoResult.response ⟨200, "", none⟩)
        9 "abc" [] (by decide) rfl).2.2.1⟩

theorem ne_none_some {α : Type} {o : Option α} (h : o ≠ none) : ∃ x, o = some x := by
  cases o with
  | none => exact absurd rfl h
  | some x => exact ⟨x, rfl⟩

theorem loop_append (cfg : Config) (exam : Exam) (headers : HttpHeader) (tr : Trace)
    (pre rest : List Location) :
    loop cfg exam headers tr (pre ++ rest) =
      match loop cfg exam headers tr pre with
      | (t, some a) => (t, some a)
      | (t, none) => loop cfg exam headers t rest := by
  induction pre generalizing tr with
  | nil => rfl
  | cons loc pre ih =>
    simp only [List.cons_append, loop]
    rcases hit : iteration cfg exam headers tr loc with ⟨t, _ | a⟩
    · simp only []
      exact ih t
    · rfl

theorem iteration_net_error (cfg : Config) (exam : Exam) (headers : HttpHeader) (tr : Trace)
    (loc : Location) (id : Int) (auth : String) (rest : List String) (err : Err)
    (hid : Atoi loc.locationID = some id) (hauth : headers.index "Authorization" = auth :: rest)
    (hq : loc.exam = DoResult.error err) :
    iteration cfg exam headers tr loc = (queried exam tr id auth, some (Abort.panic err)) := by
  unfold iteration
  simp only [hid, hauth, hq, Exam.query]
  rfl

/-- C5 as amended: a location whose query returns an error value to `main`
(not-found, or a decode error that left a decoded element) is logged and
skipped, and the loop goes on with the locations after it exactly as from
the trace reached so far, wherever the location stands in the list; a
location whose request fails in the HTTP client stops the run with a panic,
and no location after it is processed. -/
theorem error_value_skipped_net_error_aborts (cfg : Config) (exam : Exam)
    (headers : HttpHeader) (tr : Trace) (pre rest : List Location) (A : Location) (id : Int)
    (auth : String) (hs : List String) (body : JMap) (hdr : HttpHeader) (err : Err)
    (hid : Atoi A.locationID = some id) (hauth : headers.index "Authorization" = auth :: hs)
    (hq : Exam.query A.exam = Except.ok (body, hdr, some err)) :
    loop cfg exam headers tr (pre ++ A :: rest) =
      (match loop cfg exam headers tr pre with
        | (t, some a) => (t, some a)
        | (t, none) =>
          loop cfg exam headers ((queried exam t id auth).println (LogLine.error err)) rest) ∧
    (∀ (N : Location) (n : Int) (e : Err), Atoi N.locationID = some n →
      N.exam = DoResult.error e →
      loop cfg exam headers tr (pre ++ N :: rest) =
        (match loop cfg exam headers tr pre with
          | (t, some a) => (t, some a)
          | (t, none) => (queried exam t n auth, some (Abort.panic e)))) := by
  constructor
  · rw [loop_append]
    rcases loop cfg exam headers tr pre with ⟨t, _ | a⟩
    · simp only [loop]
      rw [iteration_error_value cfg exam headers t A id auth hs body hdr err hid hauth hq]
    · rfl
  · intro N n e hn he
    rw [loop_append]
    rcases loop cfg exam headers tr pre with ⟨t, _ | a⟩
    · simp only [loop]
      rw [iteration_net_error cfg exam headers t N n auth hs e hn hauth he]
    · rfl

theorem main_eq_loop (cfg : Config) (resp : LoginResponse) (locs : List Location)
    (h : resp.decodeErr = none) :
    main cfg (DoResult.response resp) locs = loop cfg (examOf cfg) resp.Header startTrace locs := by
  unfold main Login.query
  simp only [h]

/-- An instance of C5 as amended: a first location answering with an empty
sequence is skipped and the second, with a satisfying slot, is notified. -/
theorem error_value_skipped_witness :
    Atoi "9" = some 9 ∧
    Exam.query exampleNotFound = Except.ok ([], [],
      some (Err.errorf "no appointments found matching the search criteria.")) ∧
    (loop exampleConfig exampleExam [("Authorization", ["Bearer abc"])] startTrace
      ([] ++ (⟨"9", exampleNotFound, examplePushOk⟩ : Location) ::
        [⟨"275", exampleFound "2024-02-15", examplePushOk⟩])) =
    loop exampleConfig exampleExam [("Authorization", ["Bearer abc"])]
      ((queried exampleExam startTrace 9 "Bearer abc").println
        (LogLine.error (Err.errorf "no appointments found matching the search criteria.")))
      [⟨"275", exampleFound "2024-02-15", examplePushOk⟩] :=
  ⟨by decide, rfl,
  (error_value_skipped_net_error_aborts exampleConfig exampleExam
    [("Authorization", ["Bearer abc"])] startTrace [] [⟨"275", exampleFound "2024-02-15", examplePushOk⟩]
    ⟨"9", exampleNotFound, examplePushOk⟩ 9 "Bearer abc" [] [] []
    (Err.errorf "no appointments found matching the search criteria.") (by decide) rfl rfl).1⟩

/-- C5 fails as stated: with two locations, the first request failing with a
network error and the second location holding a satisfying slot, the run
panics at the first location and no notification is sent; the second
location alone would have been notified. -/
theorem network_error_aborts_run :
    (main exampleConfig exampleLogin
      [⟨"9", DoResult.error (Err.net "connection refused"), examplePushOk⟩,
       ⟨"275", exampleFound "2024-02-15", examplePushOk⟩]).2 =
        some (Abort.panic (Err.net "connection refused")) ∧
    (main exampleConfig exampleLogin
      [⟨"9", DoResult.error (Err.net "connection refused"), examplePushOk⟩,
       ⟨"275", exampleFound "2024-02-15", examplePushOk⟩]).1.alerts = [] ∧
    (main exampleConfig exampleLogin
      [⟨"275", exampleFound "2024-02-15", examplePushOk⟩]).1.alerts =
        [("tok", "usr",
          "Found appointment:\n\tlocation: 275, date: 2024-02-15 on Thursday, time: 09:35")] :=
  ⟨rfl, rfl, rfl⟩

theorem windowCheck_bad_date (endDate : String) (appointments : JMap) (hne : endDate ≠ "")
    (hbad : ∀ s, appointments.index "date" = Value.string s → Spec.calendarDate s = none) :
    ∃ e, windowCheck endDate appointments = Except.error e := by
  unfold windowCheck
  rw [if_pos hne]
  cases hp : Parse endDate with
  | error err => exact ⟨err, rfl⟩
  | ok ed =>
    simp only []
    cases hv : appointments.index "date" with
    | string s =>
      simp only [Value.assertString]
      rw [Parse_invalid s (hbad s hv)]
      exact ⟨_, rfl⟩
    | null => exact ⟨_, rfl⟩
    | bool _ => exact ⟨_, rfl⟩
    | number _ => exact ⟨_, rfl⟩
    | array _ => exact ⟨_, rfl⟩
    | object _ => exact ⟨_, rfl⟩

theorem iteration_bad_date (cfg : Config) (exam : Exam) (headers : HttpHeader) (tr : Trace)
    (loc : Location) (id : Int) (auth : String) (hs : List String) (body : JMap)
    (hdr : HttpHeader) (hne : cfg.endDate ≠ "")
    (hid : Atoi loc.locationID = some id) (hauth : headers.index "Authorization" = auth :: hs)
    (hq : Exam.query loc.exam = Except.ok (body, hdr, none))
    (hbad : ∀ (appts : JMap) (s : String), body.index "appointmentDt" = Value.object appts →
      appts.index "date" = Value.string s → Spec.calendarDate s = none) :
    ∃ e, iteration cfg exam headers tr loc = (queried exam tr id auth, some (Abort.panic e)) := by
  unfold iteration
  simp only [hid, hauth, hq]
  cases hv : body.index "appointmentDt" with
  | object appts =>
    simp only [Value.assertMap]
    obtain ⟨e, he⟩ := windowCheck_bad_date cfg.endDate appts hne (hbad appts · hv)
    rw [he]
    exact ⟨e, rfl⟩
  | null => exact ⟨_, rfl⟩
  | bool _ => exact ⟨_, rfl⟩
  | number _ => exact ⟨_, rfl⟩
  | array _ => exact ⟨_, rfl⟩
  | string _ => exact ⟨_, rfl⟩

/-- C8 as amended: with an end date set, a location whose returned first slot
has a missing, non-string or non-`YYYY-MM-DD` `appointmentDt.date` stops the
run with a panic at that location, wherever it stands in the list: its
request has been issued, no notification is sent for it, and the locations
after it are not processed. -/
theorem bad_slot_date_aborts_run (cfg : Config) (exam : Exam) (headers : HttpHeader)
    (tr : Trace) (pre rest : List Location) (A : Location) (id : Int) (auth : String)
    (hs : List String) (body : JMap) (hdr : HttpHeader) (hne : cfg.endDate ≠ "")
    (hid : Atoi A.locationID = some id) (hauth : headers.index "Authorization" = auth :: hs)
    (hq : Exam.query A.exam = Except.ok (body, hdr, none))
    (hbad : ∀ (appts : JMap) (s : String), body.index "appointmentDt" = Value.object appts →
      appts.index "date" = Value.string s → Spec.calendarDate s = none) :
    ∃ e, loop cfg exam headers tr (pre ++ A :: rest) =
      (match loop cfg exam headers tr pre with
        | (t, some a) => (t, some a)
        | (t, none) => (queried exam t id auth, some (Abort.panic e))) := by
  rw [loop_append]
  rcases loop cfg exam headers tr pre with ⟨t, _ | a⟩
  · obtain ⟨e, he⟩ := iteration_bad_date cfg exam headers t A id auth hs body hdr hne hid hauth
      hq hbad
    refine ⟨e, ?_⟩
    simp only [loop]
    rw [he]
  · exact ⟨Err.typeAssertion, rfl⟩

/-- C8 fails as stated: with end date 2024-03-01, a first location whose
slot is dated `15/03/2024` and a second location with a satisfying slot, the
run panics at the first location with the parse error; only one request is
issued and no notification is sent. -/
theorem bad_slot_date_stops_following_locations :
    (main exampleConfig exampleLogin
      [⟨"9", exampleFound "15/03/2024", examplePushOk⟩,
       ⟨"275", exampleFound "2024-02-15", examplePushOk⟩]).2 =
        some (Abort.panic (Err.parseTime "15/03/2024")) ∧
    (main exampleConfig exampleLogin
      [⟨"9", exampleFound "15/03/2024", examplePushOk⟩,
       ⟨"275", exampleFound "2024-02-15", examplePushOk⟩]).1.queries.length = 1 ∧
    (main exampleConfig exampleLogin
      [⟨"9", exampleFound "15/03/2024", examplePushOk⟩,
       ⟨"275", exampleFound "2024-02-15", examplePushOk⟩]).1.alerts = [] :=
  ⟨rfl, rfl, rfl⟩

/-- An instance of C8 as amended: the slot of location 9 is dated
`15/03/2024`, which is no calendar date. -/
theorem bad_slot_date_aborts_run_witness :
    exampleConfig.endDate ≠ "" ∧ Atoi "9" = some 9 ∧
    Spec.calendarDate "15/03/2024" = none ∧
    ∃ e, loop exampleConfig exampleExam [("Authorization", ["Bearer abc"])] startTrace
      ([] ++ (⟨"9", exampleFound "15/03/2024", examplePushOk⟩ : Location) ::
        [⟨"275", exampleFound "2024-02-15", examplePushOk⟩]) =
      (queried exampleExam startTrace 9 "Bearer abc", some (Abort.panic e)) :=
  ⟨by decide, by decide, by decide,
    bad_slot_date_aborts_run exampleConfig exampleExam [("Authorization", ["Bearer abc"])]
      startTrace [] [⟨"275", exampleFound "2024-02-15", examplePushOk⟩]
      ⟨"9", exampleFound "15/03/2024", examplePushOk⟩ 9 "Bearer abc" []
      (exampleSlot "15/03/2024") [] (by decide) (by decide) rfl rfl
      (by
        intro appts s h1 h2
        have e1 : appts = [("date", Value.string "15/03/2024"),
            ("dayOfWeek", Value.string "Thursday")] := by
          have : (exampleSlot "15/03/2024").index "appointmentDt" = Value.object
              [("date", Value.string "15/03/2024"), ("dayOfWeek", Value.string "Thursday")] := rfl
          rw [this] at h1
          injection h1 with h1
          exact h1.symm
        subst e1
        have e2 : s = "15/03/2024" := by
          have : JMap.index [("date", Value.string "15/03/2024"),
              ("dayOfWeek", Value.string "Thursday")] "date" = Value.string "15/03/2024" := rfl
          rw [this] at h2
          injection h2 with h2
          exact h2.symm
        subst e2
        decide)⟩

theorem loop_all_error_values (cfg : Config) (exam : Exam) (headers : HttpHeader)
    (auth : String) (hs : List String) (hauth : headers.index "Authorization" = auth :: hs)
    (pre : List Location)
    (hpre : ∀ loc ∈ pre, Atoi loc.locationID ≠ none ∧
      ∃ b h e, Exam.query loc.exam = Except.ok (b, h, some e)) (tr : Trace) :
    ∃ t, loop cfg exam headers tr pre = (t, none) ∧ t.alerts = tr.alerts ∧
      t.queries.length = tr.queries.length + pre.length := by
  induction pre generalizing tr with
  | nil => exact ⟨tr, rfl, rfl, rfl⟩
  | cons loc pre ih =>
    obtain ⟨hid, b, h, e, hq⟩ := hpre loc (List.mem_cons_self _ _)
    obtain ⟨id, hid⟩ := ne_none_some hid
    obtain ⟨t, h1, h2, h3⟩ := ih (fun l hl => hpre l (List.mem_cons_of_mem _ hl))
      ((queried exam tr id auth).println (LogLine.error e))
    refine ⟨t, ?_, ?_, ?_⟩
    · simp only [loop]
      rw [iteration_error_value cfg exam headers tr loc id auth hs b h e hid hauth hq]
      exact h1
    · rw [h2]; rfl
    · rw [h3]
      simp only [Trace.println, queried, List.length_append, List.length_cons, List.length_nil]
      omega

theorem iteration_invalid_end (cfg : Config) (exam : Exam) (headers : HttpHeader) (tr : Trace)
    (loc : Location) (id : Int) (auth : String) (hs : List String) (body appts : JMap)
    (hdr : HttpHeader) (hne : cfg.endDate ≠ "") (hinv : Spec.calendarDate cfg.endDate = none)
    (hid : Atoi loc.locationID = some id) (hauth : headers.index "Authorization" = auth :: hs)
    (hq : Exam.query loc.exam = Except.ok (body, hdr, none))
    (ha : body.index "appointmentDt" = Value.object appts) :
    iteration cfg exam headers tr loc =
      (queried exam tr id auth, some (Abort.panic (Err.parseTime cfg.endDate))) := by
  unfold iteration
  simp only [hid, hauth, hq, ha, Value.assertMap,
    windowCheck_invalid_end cfg.endDate appts hne hinv]
  rfl

/-- C6 as amended: when the end date is non-empty and no valid `YYYY-MM-DD`
calendar date, a run whose login succeeded stops with a panic (carrying the
parse error of the end date) at the first location whose query returns a slot
with an `appointmentDt` object, before that slot's date is read and without
any notification; as long as the queries return error values (not found,
decode error), and when no location is configured, the end date is not
parsed and the run goes on to its end. -/
theorem invalid_end_date_aborts_at_first_slot (cfg : Config) (resp : LoginResponse)
    (auth : String) (hs : List String) (pre : List Location)
    (hlogin : resp.decodeErr = none) (hauth : resp.Header.index "Authorization" = auth :: hs)
    (hne : cfg.endDate ≠ "") (hinv : Spec.calendarDate cfg.endDate = none)
    (hpre : ∀ loc ∈ pre, Atoi loc.locationID ≠ none ∧
      ∃ b h e, Exam.query loc.exam = Except.ok (b, h, some e)) :
    ((main cfg (DoResult.response resp) pre).2 = none ∧
      (main cfg (DoResult.response resp) pre).1.alerts = []) ∧
    (∀ (A : Location) (rest : List Location) (id : Int) (body appts : JMap) (hdr : HttpHeader),
      Atoi A.locationID = some id → Exam.query A.exam = Except.ok (body, hdr, none) →
      body.index "appointmentDt" = Value.object appts →
      (main cfg (DoResult.response resp) (pre ++ A :: rest)).2 =
          some (Abort.panic (Err.parseTime cfg.endDate)) ∧
        (main cfg (DoResult.response resp) (pre ++ A :: rest)).1.alerts = [] ∧
        (main cfg (DoResult.response resp) (pre ++ A :: rest)).1.queries.length =
          pre.length + 1) := by
  obtain ⟨t, h1, h2, h3⟩ := loop_all_error_values cfg (examOf cfg) resp.Header auth hs hauth pre
    hpre startTrace
  constructor
  · rw [main_eq_loop cfg resp pre hlogin, h1]
    exact ⟨rfl, h2⟩
  · intro A rest id body appts hdr hid hq ha
    rw [main_eq_loop cfg resp _ hlogin, loop_append, h1]
    simp only [loop]
    rw [iteration_invalid_end cfg (examOf cfg) resp.Header t A id auth hs body appts hdr hne hinv
      hid hauth hq ha]
    refine ⟨rfl, h2, ?_⟩
    simp only [queried, List.length_append, List.length_cons, List.length_nil, h3]
    have : startTrace.queries.length = 0 := rfl
    omega

/-- C6 fails as stated: with the end date `next friday`, a run without
locations and a run whose only location answers with an empty sequence both
reach the end of `main`; the end date is never parsed. -/
theorem invalid_end_date_ignored_without_slot :
    Spec.calendarDate "next friday" = none ∧
    (main ⟨"DOE", "1234567", "", "5-R-1", "2024-01-01", "next friday", "tok", "usr"⟩
      exampleLogin []).2 = none ∧
    (main ⟨"DOE", "1234567", "", "5-R-1", "2024-01-01", "next friday", "tok", "usr"⟩
      exampleLogin [⟨"9", exampleNotFound, examplePushOk⟩]).2 = none :=
  ⟨by decide, rfl, rfl⟩

/-- An instance of C6 as amended: end date `next friday`, a first location
without appointments and a second with a slot. -/
theorem invalid_end_date_aborts_at_first_slot_witness :
    Spec.calendarDate "next friday" = none ∧ Atoi "275" = some 275 ∧
    (main ⟨"DOE", "1234567", "", "5-R-1", "2024-01-01", "next friday", "tok", "usr"⟩
      exampleLogin
      ([⟨"9", exampleNotFound, examplePushOk⟩] ++
        (⟨"275", exampleFound "2024-02-15", examplePushOk⟩ : Location) :: [])).2 =
      some (Abort.panic (Err.parseTime "next friday")) :=
  ⟨by decide, by decide,
    ((invalid_end_date_aborts_at_first_slot
      ⟨"DOE", "1234567", "", "5-R-1", "2024-01-01", "next friday", "tok", "usr"⟩
      ⟨[("Authorization", ["Bearer abc"])], [], none⟩ "Bearer abc" []
      [⟨"9", exampleNotFound, examplePushOk⟩] rfl rfl (by decide) (by decide)
      (by
        intro loc hloc
        simp only [List.mem_singleton] at hloc
        subst hloc
        exact ⟨by decide, [], [], _, rfl⟩)).2
      ⟨"275", exampleFound "2024-02-15", examplePushOk⟩ [] 275 (exampleSlot "2024-02-15")
      [("date", Value.string "2024-02-15"), ("dayOfWeek", Value.string "Thursday")] []
      (by decide) rfl rfl).1⟩

/-- C4 as amended: when the login response has no `Authorization` header
value, no appointment request is issued and no notification is sent, and as
soon as one location is configured the run does not reach its end (it stops
at the first location, or already at the login). -/
theorem absent_authorization_no_query (cfg : Config) (resp : LoginResponse)
    (locs : List Location) (h : resp.Header.index "Authorization" = []) :
    (main cfg (DoResult.response resp) locs).1.queries = [] ∧
    (main cfg (DoResult.response resp) locs).1.alerts = [] ∧
    (locs ≠ [] → (main cfg (DoResult.response resp) locs).2 ≠ none) := by
  cases hd : resp.decodeErr with
  | some err =>
    have : main cfg (DoResult.response resp) locs =
        (startTrace, some (Abort.fatal "failed logging into the portal: %s" err)) := by
      unfold main Login.query
      simp only [hd]
    rw [this]
    exact ⟨rfl, rfl, fun _ => by simp⟩
  | none =>
    rw [main_eq_loop cfg resp locs hd]
    cases locs with
    | nil => exact ⟨rfl, rfl, fun hne => absurd rfl hne⟩
    | cons loc rest =>
      simp only [loop]
      cases hid : Atoi loc.locationID with
      | none =>
        have : iteration cfg (examOf cfg) resp.Header startTrace loc =
            (startTrace, some (Abort.panic (Err.numError loc.locationID))) := by
          unfold iteration
          simp only [hid]
        rw [this]
        exact ⟨rfl, rfl, fun _ => by simp⟩
      | some id =>
        have : iteration cfg (examOf cfg) resp.Header startTrace loc =
            (startTrace.println (LogLine.text
              ("querying free appointmens for location: " ++ toString id ++ "\n")),
              some (Abort.panic Err.indexOutOfRange)) := by
          unfold iteration
          simp only [hid, h]
        rw [this]
        exact ⟨rfl, rfl, fun _ => by simp⟩

/-- An instance of C4 as amended: a login response without headers and one
location. -/
theorem absent_authorization_no_query_witness :
    HttpHeader.index [] "Authorization" = [] ∧
    (main exampleConfig (DoResult.response ⟨[], [], none⟩)
      [⟨"9", exampleFound "2024-02-15", examplePushOk⟩]).1.queries = [] ∧
    (main exampleConfig (DoResult.response ⟨[], [], none⟩)
      [⟨"9", exampleFound "2024-02-15", examplePushOk⟩]).2 ≠ none :=
  ⟨rfl,
    (absent_authorization_no_query exampleConfig ⟨[], [], none⟩
      [⟨"9", exampleFound "2024-02-15", examplePushOk⟩] rfl).1,
    (absent_authorization_no_query exampleConfig ⟨[], [], none⟩
      [⟨"9", exampleFound "2024-02-15", examplePushOk⟩] rfl).2.2 (by simp)⟩

/-- C4 fails as stated: a login response whose `Authorization` header has
the empty string as first value is taken as a success; the request for
location 9 is issued with the empty token and the run reaches its end.  With
no location configured, a response without the header does not stop the run
either. -/
theorem empty_token_is_accepted :
    (main exampleConfig (DoResult.response ⟨[("Authorization", [""])], [], none⟩)
      [⟨"9", exampleNotFound, examplePushOk⟩]).2 = none ∧
    (main exampleConfig (DoResult.response ⟨[("Authorization", [""])], [], none⟩)
      [⟨"9", exampleNotFound, examplePushOk⟩]).1.queries.map
        (fun req => (req.body.LocationID, req.headers.lookup "Authorization")) =
      [(9, some "")] ∧
    (main exampleConfig (DoResult.response ⟨[], [], none⟩) []).2 = none :=
  ⟨rfl, rfl, rfl⟩

theorem slotOf_some (r : DoResult ExamResponse) (s : Spec.SlotResult)
    (h : Spec.slotOf r = some s) :
    ∃ (hdr : HttpHeader) (body : JMap) (rest : List JMap) (a : JMap),
      r = DoResult.response ⟨hdr, body :: rest, none⟩ ∧
      body.index "appointmentDt" = Value.object a ∧
      a.index "date" = Value.string s.date ∧
      a.index "dayOfWeek" = Value.string s.dayOfWeek ∧
      body.index "startTm" = Value.string s.startTm := by
  unfold Spec.slotOf at h
  split at h
  · exact absurd h (by simp)
  · rename_i resp
    obtain ⟨hdr, db, de⟩ := resp
    simp only [] at h
    split at h
    · rename_i body rest
      split at h
      · rename_i a ha
        split at h
        · rename_i d w t hd hw ht
          injection h with h
          subst h
          exact ⟨hdr, body, rest, a, rfl, ha, hd, hw, ht⟩
        · exact absurd h (by simp)
      · exact absurd h (by simp)
    · exact absurd h (by simp)

theorem wellFormed_cases (r : DoResult ExamResponse) (h : Spec.wellFormed r = true) :
    (∃ hdr, r = DoResult.response ⟨hdr, [], none⟩) ∨
    (∃ s, Spec.slotOf r = some s ∧ ∃ d, Spec.calendarDate s.date = some d) := by
  unfold Spec.wellFormed at h
  split at h
  · exact absurd h (by simp)
  · rename_i resp
    obtain ⟨hdr, db, de⟩ := resp
    simp only [Bool.and_eq_true, Bool.or_eq_true, Option.isNone_iff_eq_none,
      List.isEmpty_iff] at h
    obtain ⟨h1, h2⟩ := h
    subst h1
    rcases h2 with h2 | h2
    · subst h2
      exact Or.inl ⟨hdr, rfl⟩
    · right
      split at h2
      · rename_i s hs
        exact ⟨s, hs, Option.isSome_iff_exists.mp h2⟩
      · exact absurd h2 (by simp)

theorem slotOf_notFound (hdr : HttpHeader) :
    Spec.slotOf (DoResult.response ⟨hdr, [], none⟩) = none := rfl

theorem message_eq (id : Int) (a body : JMap) (s : Spec.SlotResult)
    (hd : a.index "date" = Value.string s.date)
    (hw : a.index "dayOfWeek" = Value.string s.dayOfWeek)
    (ht : body.index "startTm" = Value.string s.startTm) :
    message id a body = Except.ok (Spec.template id s) := by
  unfold message
  simp only [hd, hw, ht, Value.assertString]
  rfl

theorem pushover_response (token user msg : String) (resp : PostResponse) :
    (pushover token user msg (DoResult.response resp)).2 = Except.ok () := by
  unfold pushover
  simp only []
  split_ifs
  · split <;> rfl
  · rfl

theorem iteration_pass (cfg : Config) (exam : Exam) (headers : HttpHeader) (tr : Trace)
    (loc : Location) (id : Int) (auth : String) (hs : List String) (body a : JMap)
    (hdr : HttpHeader) (msg : String) (hcred : cfg.token ≠ "" ∧ cfg.user ≠ "")
    (hid : Atoi loc.locationID = some id) (hauth : headers.index "Authorization" = auth :: hs)
    (hq : Exam.query loc.exam = Except.ok (body, hdr, none))
    (ha : body.index "appointmentDt" = Value.object a)
    (hw : windowCheck cfg.endDate a = Except.ok true)
    (hm : message id a body = Except.ok msg) :
    iteration cfg exam headers tr loc =
      (notified cfg exam tr id auth msg loc.push,
        match (pushover cfg.token cfg.user msg loc.push).2 with
        | Except.error ab => some ab
        | Except.ok _ => none) := by
  unfold iteration
  simp only [hid, hauth, hq, ha, Value.assertMap, hw, hm]
  rw [if_pos hcred]
  cases hp : (pushover cfg.token cfg.user msg loc.push).2 <;> rfl

theorem iteration_reject (cfg : Config) (exam : Exam) (headers : HttpHeader) (tr : Trace)
    (loc : Location) (id : Int) (auth : String) (hs : List String) (body a : JMap)
    (hdr : HttpHeader)
    (hid : Atoi loc.locationID = some id) (hauth : headers.index "Authorization" = auth :: hs)
    (hq : Exam.query loc.exam = Except.ok (body, hdr, none))
    (ha : body.index "appointmentDt" = Value.object a)
    (hw : windowCheck cfg.endDate a = Except.ok false) :
    iteration cfg exam headers tr loc =
      ((queried exam tr id auth).println
        (LogLine.text "no appointments found matching the search criteria."), none) := by
  unfold iteration
  simp only [hid, hauth, hq, ha, Value.assertMap, hw]
  rfl

theorem queried_length (exam : Exam) (tr : Trace) (id : Int) (auth : String) :
    (queried exam tr id auth).queries.length = tr.queries.length + 1 := by
  simp [queried]

/-- What one loop iteration does for a location with a well-formed search
outcome, once its request is issued. -/
theorem iteration_wellFormed (cfg : Config) (exam : Exam) (headers : HttpHeader) (tr : Trace)
    (loc : Location) (id : Int) (auth : String) (hs : List String)
    (hcred : cfg.token ≠ "" ∧ cfg.user ≠ "")
    (hid : Atoi loc.locationID = some id) (hauth : headers.index "Authorization" = auth :: hs)
    (hwf : Spec.wellFormed loc.exam = true) :
    (iteration cfg exam headers tr loc).1.queries.length = tr.queries.length + 1 ∧
    (iteration cfg exam headers tr loc).1.alerts = tr.alerts ++
      (Spec.notification cfg.endDate loc).toList.map (fun m => (cfg.token, cfg.user, m)) ∧
    ((iteration cfg exam headers tr loc).2 = none ∨
      (cfg.endDate ≠ "" ∧ Spec.calendarDate cfg.endDate = none) ∨
      (∃ e, loc.push = DoResult.error e)) := by
  rcases wellFormed_cases loc.exam hwf with ⟨hdr, hnf⟩ | ⟨s, hs1, d, hd⟩
  · have hq : Exam.query loc.exam = Except.ok ([], hdr,
        some (Err.errorf "no appointments found matching the search criteria.")) := by
      rw [hnf]; rfl
    have hn : Spec.notification cfg.endDate loc = none := by
      unfold Spec.notification
      rw [hnf, slotOf_notFound]
    rw [iteration_error_value cfg exam headers tr loc id auth hs [] hdr _ hid hauth hq, hn]
    refine ⟨queried_length exam tr id auth, ?_, Or.inl rfl⟩
    simp [Trace.println, queried]
  · obtain ⟨hdr, body, rest, a, hr, ha, hdate, hdow, htm⟩ := slotOf_some loc.exam s hs1
    have hq : Exam.query loc.exam = Except.ok (body, hdr, none) := by
      rw [hr]; rfl
    have hn : Spec.notification cfg.endDate loc =
        if Spec.satisfies (some s.date) cfg.endDate = some true then some (Spec.template id s)
        else none := by
      unfold Spec.notification
      rw [hs1, hid]
    have hsd : Spec.slotDate a = some s.date := by
      unfold Spec.slotDate
      rw [hdate]
    cases hsat : Spec.satisfies (some s.date) cfg.endDate with
    | none =>
      have hne : cfg.endDate ≠ "" := by
        intro h0
        unfold Spec.satisfies at hsat
        rw [if_pos h0] at hsat
        exact absurd hsat (by simp)
      have hinv : Spec.calendarDate cfg.endDate = none := by
        unfold Spec.satisfies at hsat
        rw [if_neg hne] at hsat
        simp only [hd] at hsat
        cases he : Spec.calendarDate cfg.endDate with
        | none => rfl
        | some e => rw [he] at hsat; exact absurd hsat (by simp)
      rw [iteration_invalid_end cfg exam headers tr loc id auth hs body a hdr hne hinv hid hauth
        hq ha, hn, hsat]
      refine ⟨queried_length exam tr id auth, ?_, Or.inr (Or.inl ⟨hne, hinv⟩)⟩
      simp [queried]
    | some b =>
      have hw : windowCheck cfg.endDate a = Except.ok b :=
        windowCheck_of_satisfies cfg.endDate a b (by rw [hsd]; exact hsat)
      cases b with
      | false =>
        rw [iteration_reject cfg exam headers tr loc id auth hs body a hdr hid hauth hq ha hw,
          hn, hsat]
        refine ⟨queried_length exam tr id auth, ?_, Or.inl rfl⟩
        simp [Trace.println, queried]
      | true =>
        rw [iteration_pass cfg exam headers tr loc id auth hs body a hdr (Spec.template id s)
          hcred hid hauth hq ha hw (message_eq id a body s hdate hdow htm), hn, hsat]
        refine ⟨queried_length exam tr id auth, ?_, ?_⟩
        · simp [notified]
        · cases hp : loc.push with
          | error e => exact Or.inr (Or.inr ⟨e, rfl⟩)
          | response resp =>
            left
            simp only [pushover_response]

theorem iteration_before_query (cfg : Config) (exam : Exam) (headers : HttpHeader) (tr : Trace)
    (loc : Location)
    (h : Atoi loc.locationID = none ∨ headers.index "Authorization" = []) :
    (iteration cfg exam headers tr loc).1.queries = tr.queries ∧
    (iteration cfg exam headers tr loc).1.alerts = tr.alerts ∧
    (iteration cfg exam headers tr loc).2 ≠ none := by
  unfold iteration
  cases hid : Atoi loc.locationID with
  | none => simp
  | some id =>
    rcases h with h | h
    · rw [hid] at h; exact absurd h (by simp)
    · simp only [h]
      exact ⟨rfl, rfl, by simp⟩

theorem loop_alerts (cfg : Config) (exam : Exam) (headers : HttpHeader)
    (hcred : cfg.token ≠ "" ∧ cfg.user ≠ "") (locs : List Location)
    (hwf : ∀ loc ∈ locs, Spec.wellFormed loc.exam = true) (tr : Trace) :
    ∃ k, (loop cfg exam headers tr locs).1.queries.length = tr.queries.length + k ∧
      (loop cfg exam headers tr locs).1.alerts = tr.alerts ++
        ((locs.take k).filterMap (Spec.notification cfg.endDate)).map
          (fun m => (cfg.token, cfg.user, m)) := by
  induction locs generalizing tr with
  | nil => exact ⟨0, rfl, by simp [loop]⟩
  | cons loc rest ih =>
    have hwl := hwf loc (List.mem_cons_self _ _)
    have hwr : ∀ l ∈ rest, Spec.wellFormed l.exam = true :=
      fun l hl => hwf l (List.mem_cons_of_mem _ hl)
    by_cases hpre : Atoi loc.locationID = none ∨ headers.index "Authorization" = []
    · obtain ⟨h1, h2, h3⟩ := iteration_before_query cfg exam headers tr loc hpre
      refine ⟨0, ?_, ?_⟩
      · simp only [loop]
        rcases hit : iteration cfg exam headers tr loc with ⟨t, _ | a⟩
        · rw [hit] at h3; exact absurd rfl h3
        · rw [hit] at h1; simp only [] at h1 ⊢; rw [h1]; rfl
      · simp only [loop]
        rcases hit : iteration cfg exam headers tr loc with ⟨t, _ | a⟩
        · rw [hit] at h3; exact absurd rfl h3
        · rw [hit] at h2; simp only [] at h2 ⊢; rw [h2]; simp
    · have hid : ∃ id, Atoi loc.locationID = some id := by
        cases h : Atoi loc.locationID with
        | none => exact absurd (Or.inl h) hpre
        | some id => exact ⟨id, rfl⟩
      have hauth : ∃ auth hs, headers.index "Authorization" = auth :: hs := by
        cases h : headers.index "Authorization" with
        | nil => exact absurd (Or.inr h) hpre
        | cons auth hs => exact ⟨auth, hs, rfl⟩
      obtain ⟨id, hid⟩ := hid
      obtain ⟨auth, hs, hauth⟩ := hauth
      obtain ⟨h1, h2, _⟩ := iteration_wellFormed cfg exam headers tr loc id auth hs hcred hid
        hauth hwl
      simp only [loop]
      rcases hit : iteration cfg exam headers tr loc with ⟨t, _ | a⟩
      · rw [hit] at h1 h2
        simp only [] at h1 h2 ⊢
        obtain ⟨k, k1, k2⟩ := ih hwr t
        refine ⟨k + 1, ?_, ?_⟩
        · rw [k1, h1]; omega
        · rw [k2, h2, List.take_succ_cons]
          cases hn : Spec.notification cfg.endDate loc with
          | none => simp [List.filterMap_cons, hn]
          | some m => simp [List.filterMap_cons, hn]
      · rw [hit] at h1 h2
        simp only [] at h1 h2 ⊢
        refine ⟨1, h1, ?_⟩
        rw [h2]
        cases hn : Spec.notification cfg.endDate loc with
        | none => simp [List.filterMap_cons, hn]
        | some m => simp [List.filterMap_cons, hn]

theorem loop_completes (cfg : Config) (exam : Exam) (headers : HttpHeader) (auth : String)
    (hs : List String) (hcred : cfg.token ≠ "" ∧ cfg.user ≠ "")
    (hauth : headers.index "Authorization" = auth :: hs)
    (hend : cfg.endDate = "" ∨ Spec.calendarDate cfg.endDate ≠ none)
    (locs : List Location)
    (hwf : ∀ loc ∈ locs, Spec.wellFormed loc.exam = true)
    (hids : ∀ loc ∈ locs, Atoi loc.locationID ≠ none)
    (hpush : ∀ loc ∈ locs, ∃ r, loc.push = DoResult.response r) (tr : Trace) :
    (loop cfg exam headers tr locs).2 = none ∧
    (loop cfg exam headers tr locs).1.queries.length = tr.queries.length + locs.length := by
  induction locs generalizing tr with
  | nil => exact ⟨rfl, rfl⟩
  | cons loc rest ih =>
    obtain ⟨id, hid⟩ := ne_none_some (hids loc (List.mem_cons_self _ _))
    obtain ⟨h1, _, h3⟩ := iteration_wellFormed cfg exam headers tr loc id auth hs hcred hid
      hauth (hwf loc (List.mem_cons_self _ _))
    have hnone : (iteration cfg exam headers tr loc).2 = none := by
      rcases h3 with h3 | ⟨h3, h4⟩ | ⟨e, h3⟩
      · exact h3
      · rcases hend with h5 | h5
        · exact absurd h5 h3
        · exact absurd h4 h5
      · obtain ⟨r, hr⟩ := hpush loc (List.mem_cons_self _ _)
        rw [hr] at h3
        exact absurd h3 (by simp)
    simp only [loop]
    rcases hit : iteration cfg exam headers tr loc with ⟨t, _ | a⟩
    · rw [hit] at h1
      simp only [] at h1 ⊢
      obtain ⟨i1, i2⟩ := ih (fun l hl => hwf l (List.mem_cons_of_mem _ hl))
        (fun l hl => hids l (List.mem_cons_of_mem _ hl))
        (fun l hl => hpush l (List.mem_cons_of_mem _ hl)) t
      refine ⟨i1, ?_⟩
      rw [i2, h1, List.length_cons]
      omega
    · rw [hit] at hnone
      exact absurd hnone (by simp)

/-- C3: in a run whose login succeeded, with alert credentials set and every
location's search outcome well-formed, the messages handed to the alert sink
(with the configured credentials) are, in the order of the location list,
exactly the template messages of the locations queried in the run whose
slot satisfies the date window, one each, and none for a location that
returned not-found or a slot failing the window.  A run stops early only
before a location's request is issued or after its message is handed over,
so the locations queried are an initial part of the list; they are the
whole list when the bearer token is present, the identifiers are integers,
the end date is unset or valid, and every alert request gets a response. -/
theorem alerts_are_satisfying_slots (cfg : Config) (resp : LoginResponse)
    (locs : List Location) (hlogin : resp.decodeErr = none)
    (hcred : cfg.token ≠ "" ∧ cfg.user ≠ "")
    (hwf : ∀ loc ∈ locs, Spec.wellFormed loc.exam = true) :
    (main cfg (DoResult.response resp) locs).1.alerts =
      ((locs.take (main cfg (DoResult.response resp) locs).1.queries.length).filterMap
        (Spec.notification cfg.endDate)).map (fun m => (cfg.token, cfg.user, m)) ∧
    (∀ (auth : String) (hs : List String),
      resp.Header.index "Authorization" = auth :: hs →
      (cfg.endDate = "" ∨ Spec.calendarDate cfg.endDate ≠ none) →
      (∀ loc ∈ locs, Atoi loc.locationID ≠ none) →
      (∀ loc ∈ locs, ∃ r, loc.push = DoResult.response r) →
      (main cfg (DoResult.response resp) locs).2 = none ∧
      (main cfg (DoResult.response resp) locs).1.alerts =
        (locs.filterMap (Spec.notification cfg.endDate)).map
          (fun m => (cfg.token, cfg.user, m))) := by
  rw [main_eq_loop cfg resp locs hlogin]
  obtain ⟨k, k1, k2⟩ := loop_alerts cfg (examOf cfg) resp.Header hcred locs hwf startTrace
  have hk : (loop cfg (examOf cfg) resp.Header startTrace locs).1.queries.length = k := by
    rw [k1]
    show 0 + k = k
    omega
  have ha : (loop cfg (examOf cfg) resp.Header startTrace locs).1.alerts =
      ((locs.take k).filterMap (Spec.notification cfg.endDate)).map
        (fun m => (cfg.token, cfg.user, m)) := by
    rw [k2]
    show [] ++ _ = _
    rfl
  refine ⟨by rw [hk]; exact ha, ?_⟩
  intro auth hs hauth hend hids hpush
  obtain ⟨c1, c2⟩ := loop_completes cfg (examOf cfg) resp.Header auth hs hcred hauth hend locs
    hwf hids hpush startTrace
  refine ⟨c1, ?_⟩
  have hkl : k = locs.length := by
    rw [← hk, c2]
    show 0 + locs.length = locs.length
    omega
  rw [ha, hkl, List.take_length]

/-- An instance of C3: three locations, the first without appointments, the
second with a slot before the end date 2024-03-01, the third with a slot
after it; one message is handed over, for the second. -/
theorem alerts_are_satisfying_slots_witness :
    (exampleConfig.token ≠ "" ∧ exampleConfig.user ≠ "") ∧
    Spec.wellFormed exampleNotFound = true ∧
    Spec.wellFormed (exampleFound "2024-02-15") = true ∧
    Spec.wellFormed (exampleFound "2024-03-15") = true ∧
    (main exampleConfig exampleLogin
      [⟨"9", exampleNotFound, examplePushOk⟩, ⟨"275", exampleFound "2024-02-15", examplePushOk⟩,
       ⟨"14", exampleFound "2024-03-15", examplePushOk⟩]).1.alerts =
      [("tok", "usr",
        "Found appointment:\n\tlocation: 275, date: 2024-02-15 on Thursday, time: 09:35")] :=
  ⟨by decide, by decide, by decide, by decide,
    ((alerts_are_satisfying_slots exampleConfig ⟨[("Authorization", ["Bearer abc"])], [], none⟩
      [⟨"9", exampleNotFound, examplePushOk⟩, ⟨"275", exampleFound "2024-02-15", examplePushOk⟩,
       ⟨"14", exampleFound "2024-03-15", examplePushOk⟩] rfl (by decide)
      (by
        intro loc hloc
        simp only [List.mem_cons, List.mem_singleton, List.not_mem_nil, or_false] at hloc
        rcases hloc with h | h | h <;> subst h <;> decide)).1).trans rfl⟩

/-- C7, evaluated at the failing input: when `Decode` returns an error and
leaves the slice empty (nil), as for a body that is not a JSON array,
`Exam.query` does not return the error: the index expression `decodedBody[0]`
panics, and the run stops there, before the next location. -/
theorem query_decode_error_empty_panics :
    (∀ (hdr : HttpHeader) (err : Err),
      Exam.query (DoResult.response ⟨hdr, [], some err⟩) =
        Except.error (Abort.panic Err.indexOutOfRange)) ∧
    (main exampleConfig exampleLogin
      [⟨"9", DoResult.response ⟨[], [], some (Err.json
          "json: cannot unmarshal object into Go value")⟩,
        examplePushOk⟩,
       ⟨"275", exampleFound "2024-02-15", examplePushOk⟩]).2 =
      some (Abort.panic Err.indexOutOfRange) :=
  ⟨fun _ _ => rfl, rfl⟩

/-- C9, evaluated at the failing input: when `http.PostForm` returns an
error and no response, `pushover` logs the error and then panics on
`resp.StatusCode`, which stops the run before the next location; when there
is a response, whatever its status, `pushover` returns. -/
theorem pushover_transport_error_panics :
    (∀ (token user msg : String) (err : Err),
      pushover token user msg (DoResult.error err) =
        ([LogLine.error err], Except.error (Abort.panic Err.nilDereference))) ∧
    (∀ (token user msg : String) (status : Nat) (body : String),
      pushover token user msg (DoResult.response ⟨status, body, none⟩) =
        (if status ≠ 200 then [LogLine.text body] else [], Except.ok ())) ∧
    (main exampleConfig exampleLogin
      [⟨"9", exampleFound "2024-02-15", DoResult.error (Err.net "dial tcp: i/o timeout")⟩,
       ⟨"275", exampleFound "2024-02-20", examplePushOk⟩]).2 =
      some (Abort.panic Err.nilDereference) ∧
    (main exampleConfig exampleLogin
      [⟨"9", exampleFound "2024-02-15", DoResult.error (Err.net "dial tcp: i/o timeout")⟩,
       ⟨"275", exampleFound "2024-02-20", examplePushOk⟩]).1.queries.length = 1 := by
  refine ⟨fun _ _ _ _ => rfl, fun token user msg status body => ?_, rfl, rfl⟩
  unfold pushover
  by_cases h : status = 200 <;> simp [h]

end ICBC
